import Mathlib

/-!
Shallow embedding of the conditional cell/row formatting engine of
`src/reportlabcustom/utils.py` (rule evaluator, condition matchers,
gradient interpolation, style map), together with theorems settling the
specification's claims about it.

Modelling conventions.  Numbers are rationals (`ℚ`); dates are proleptic
Gregorian ordinals (`ℤ`, as produced by Python's `date.toordinal`).
Python operations that can raise an exception which the source does NOT
catch are modelled in the `Except String` monad; operations whose
exceptions the source catches are resolved directly to the behaviour of
the corresponding `except` branch.  Python dicts are association lists
updated with replace-on-assign.  The ambient state the evaluator reads
(`datetime.now(sg_tz)` and the module globals consulted by
`globals().get(...)`) is passed in as an explicit `EvalContext` record.
-/

namespace RLC

/-- A scalar cell or rule value: Python `None`/`NaN`, a string, a number
(`int`/`float`, modelled as `ℚ`), or a datetime at date granularity
(a proleptic Gregorian ordinal). -/
inductive Value where
  | null : Value
  | str : String → Value
  | num : ℚ → Value
  | date : ℤ → Value
deriving DecidableEq

/-- Python `str()` on a cell value, restricted to the kinds in `Value`.
Integral numbers print like Python ints; non-integral rationals print as
`num/den` and dates print their ordinal (no claim depends on the exact
rendering of those two kinds); a missing pandas cell stringifies as
`nan`. -/
def pyStr : Value → String
  | .null => "nan"
  | .str s => s
  | .num q => if q.den = 1 then toString q.num else toString q.num ++ "/" ++ toString q.den
  | .date d => "date-ordinal " ++ toString d

/-- Python `str(x)` where `x` may be the absent-key default `None`. -/
def pyStrN : Option Value → String
  | none => "None"
  | some v => pyStr v

/-- Python `str(d.get(k, ""))`: stringification with the empty-string
default used by the `contains` and row-scope `equals` matchers. -/
def pyStrD (v : Option Value) : String :=
  pyStr (v.getD (Value.str ""))

/-- Python truthiness of an optional rule value (`NaN` is truthy). -/
def pyTruthy : Option Value → Bool
  | none => false
  | some .null => true
  | some (.str s) => decide (s ≠ "")
  | some (.num q) => decide (q ≠ 0)
  | some (.date _) => true

/-- Numeric value of a list of decimal digit characters. -/
def digitsVal (l : List Char) : ℕ :=
  l.foldl (fun a c => a * 10 + (c.toNat - 48)) 0

/-- Python `float(string)` restricted to plain decimal literals: optional
surrounding whitespace, an optional sign, then digits with an optional
fractional part (at least one digit overall).  Exponents and the
`inf`/`nan` spellings are not modelled; on those — as on any other
unparsable string — the result is `none` (Python raises `ValueError`,
which every caller in the source catches). -/
def parseDecimal (s : String) : Option ℚ :=
  let t := s.trim.toList
  let signAndRest : ℚ × List Char :=
    match t with
    | '-' :: r => (-1, r)
    | '+' :: r => (1, r)
    | r => (1, r)
  let sign := signAndRest.1
  let rest := signAndRest.2
  let intPart := rest.takeWhile Char.isDigit
  let rest2 := rest.dropWhile Char.isDigit
  match rest2 with
  | [] =>
      if intPart.isEmpty then none
      else some (sign * (digitsVal intPart : ℚ))
  | '.' :: frac =>
      if frac.all Char.isDigit && !(intPart.isEmpty && frac.isEmpty) then
        some (sign * ((digitsVal intPart : ℚ) + (digitsVal frac : ℚ) / ((10 : ℚ) ^ frac.length)))
      else none
  | _ => none

/-- Python `float(x)` on a cell value; `none` when it raises (every
caller catches) or when the result is `NaN` (a NaN satisfies none of the
five comparison operators used, so skipping the row is equivalent). -/
def pyFloat? : Value → Option ℚ
  | .null => none
  | .str s => parseDecimal s
  | .num q => some q
  | .date _ => none

/-- Leap years of the proleptic Gregorian calendar. -/
def isLeapYear (y : ℤ) : Bool :=
  (decide (y % 4 = 0) && decide (y % 100 ≠ 0)) || decide (y % 400 = 0)

/-- Cumulative days before the given month (1-based) in a common year. -/
def daysBeforeMonth (m : ℕ) : ℕ :=
  [0, 31, 59, 90, 120, 151, 181, 212, 243, 273, 304, 334].getD (m - 1) 0

/-- Number of days in a month of a given year. -/
def daysInMonth (y : ℤ) (m : ℕ) : ℕ :=
  if m = 2 then (if isLeapYear y then 29 else 28)
  else [31, 31, 28, 31, 30, 31, 30, 31, 31, 30, 31, 30, 31].getD m 0

/-- Python `date(y, m, d).toordinal()`: days since 0001-01-00. -/
def dateToOrdinal (y : ℤ) (m d : ℕ) : ℤ :=
  365 * (y - 1) + (y - 1).fdiv 4 - (y - 1).fdiv 100 + (y - 1).fdiv 400
    + (daysBeforeMonth m : ℤ)
    + (if 2 < m ∧ isLeapYear y then 1 else 0)
    + (d : ℤ)

/-- Models `pd.to_datetime(x, errors="coerce")` at date granularity,
restricted to ISO `YYYY-MM-DD` strings and datetime values; every other
value (including the epoch-offset reading pandas gives bare numbers,
which no rule in the repository exercises) coerces to `NaT` (`none`). -/
def pdToDatetime? : Value → Option ℤ
  | .date d => some d
  | .str s =>
      match s.trim.splitOn "-" with
      | [ys, ms, ds] =>
          if ys.toList.all Char.isDigit && !ys.isEmpty
              && ms.toList.all Char.isDigit && !ms.isEmpty
              && ds.toList.all Char.isDigit && !ds.isEmpty then
            let y : ℤ := (digitsVal ys.toList : ℤ)
            let m := digitsVal ms.toList
            let d := digitsVal ds.toList
            if 1 ≤ m && m ≤ 12 && 1 ≤ d && d ≤ daysInMonth y m then
              some (dateToOrdinal y m d)
            else none
          else none
      | _ => none
  | .num _ => none
  | .null => none

/-- Value of a hexadecimal digit character. -/
def hexDigitVal? (c : Char) : Option ℕ :=
  if c.isDigit then some (c.toNat - 48)
  else if 'a' ≤ c ∧ c ≤ 'f' then some (c.toNat - 87)
  else if 'A' ≤ c ∧ c ≤ 'F' then some (c.toNat - 55)
  else none

/-- Python `int(s, 16)` on a character list; `none` models the
`ValueError` raised on an empty or non-hexadecimal string. -/
def parseHex? (l : List Char) : Option ℕ :=
  if l.isEmpty then none
  else l.foldl (fun acc c => acc.bind fun a => (hexDigitVal? c).map fun v => a * 16 + v) (some 0)

/-- Python string slice `s[i:j]` (character positions). -/
def strSlice (s : String) (i j : ℕ) : List Char :=
  (s.toList.drop i).take (j - i)

/-- Python `s.lstrip(ch)`. -/
def lstripChar (s : String) (ch : Char) : String :=
  String.mk (s.toList.dropWhile (fun c => decide (c = ch)))

/-- Embeds `hex_to_rgb` (utils.py line 44).  `Except.error` models the
`ValueError` raised by `int(_, 16)` on a malformed hex string — an error
the source never catches. -/
def hex_to_rgb (hex_color : String) : Except String (ℕ × ℕ × ℕ) :=
  let h := lstripChar hex_color '#'
  match parseHex? (strSlice (String.mk h.toList) 0 2),
        parseHex? (strSlice (String.mk h.toList) 2 4),
        parseHex? (strSlice (String.mk h.toList) 4 6) with
  | some r, some g, some b => .ok (r, g, b)
  | _, _, _ => .error ("ValueError: invalid literal for int with base 16: " ++ hex_color)

/-- Python `int()` on a number: truncation toward zero. -/
def pyInt (q : ℚ) : ℤ :=
  if 0 ≤ q then ⌊q⌋ else ⌈q⌉

/-- Lower-case hexadecimal digit character of `n < 16`. -/
def hexDigitChar (n : ℕ) : Char :=
  if n < 10 then Char.ofNat (48 + n) else Char.ofNat (87 + n)

/-- Python `"{:02x}".format(n)` for `0 ≤ n ≤ 255`. -/
def toHex2 (n : ℤ) : String :=
  String.mk [hexDigitChar ((n.toNat / 16) % 16), hexDigitChar (n.toNat % 16)]

/-- Embeds `rgb_to_hex` (utils.py line 48): each channel is passed
through `int()` (truncation) and formatted as two lower-case hex
digits. -/
def rgb_to_hex (rgb : ℚ × ℚ × ℚ) : String :=
  "#" ++ toHex2 (pyInt rgb.1) ++ toHex2 (pyInt rgb.2.1) ++ toHex2 (pyInt rgb.2.2)

/-- Embeds `interpolate_color` (utils.py line 51). -/
def interpolate_color (color1 color2 : String) (factor : ℚ) : Except String String := do
  let rgb1 ← hex_to_rgb color1
  let rgb2 ← hex_to_rgb color2
  let r : ℚ := (rgb1.1 : ℚ) + ((rgb2.1 : ℚ) - (rgb1.1 : ℚ)) * factor
  let g : ℚ := (rgb1.2.1 : ℚ) + ((rgb2.2.1 : ℚ) - (rgb1.2.1 : ℚ)) * factor
  let b : ℚ := (rgb1.2.2 : ℚ) + ((rgb2.2.2 : ℚ) - (rgb1.2.2 : ℚ)) * factor
  return rgb_to_hex (r, g, b)

/-- Channel interpolation exactly as the specification words it —
`round(r1 + (r2-r1)*factor)` per channel — declared only to compare the
specification's formula against the source, which truncates. -/
def interpolate_color_spec (color1 color2 : String) (factor : ℚ) : Except String String := do
  let rgb1 ← hex_to_rgb color1
  let rgb2 ← hex_to_rgb color2
  return "#" ++ toHex2 (round ((rgb1.1 : ℚ) + ((rgb2.1 : ℚ) - (rgb1.1 : ℚ)) * factor))
    ++ toHex2 (round ((rgb1.2.1 : ℚ) + ((rgb2.2.1 : ℚ) - (rgb1.2.1 : ℚ)) * factor))
    ++ toHex2 (round ((rgb1.2.2 : ℚ) + ((rgb2.2.2 : ℚ) - (rgb1.2.2 : ℚ)) * factor))

/-- Python list indexing `l[i]`; `Except.error` models the uncaught
`IndexError`. -/
def pyIndex (l : List String) (i : ℕ) : Except String String :=
  match l.get? i with
  | some x => .ok x
  | none => .error ("IndexError")

/-- Python float division; `Except.error` models the uncaught
`ZeroDivisionError`. -/
def pyDiv (a b : ℚ) : Except String ℚ :=
  if b = 0 then .error ("ZeroDivisionError") else .ok (a / b)

/-- Embeds `get_gradient_color` (utils.py lines 57–67), with the same
branch order as the source. -/
def get_gradient_color (value min_val mid_val max_val : ℚ) (colors : List String) :
    Except String String :=
  if value ≤ min_val then pyIndex colors 0
  else if value ≥ max_val then pyIndex colors 2
  else if value ≤ mid_val then do
    let factor ← pyDiv (value - min_val) (mid_val - min_val)
    let c0 ← pyIndex colors 0
    let c1 ← pyIndex colors 1
    interpolate_color c0 c1 factor
  else do
    let factor ← pyDiv (value - mid_val) (max_val - mid_val)
    let c1 ← pyIndex colors 1
    let c2 ← pyIndex colors 2
    interpolate_color c1 c2 factor

/-- Whether `small` is a prefix of `big` (character-wise). -/
def startsWithChars : List Char → List Char → Bool
  | [], _ => true
  | _ :: _, [] => false
  | a :: as, b :: bs => decide (a = b) && startsWithChars as bs

/-- Whether `needle` occurs in `hay` (character lists). -/
def containsChars (needle : List Char) : List Char → Bool
  | [] => needle.isEmpty
  | c :: rest => startsWithChars needle (c :: rest) || containsChars needle rest

/-- Python substring test `needle in hay`. -/
def strContainsSub (hay needle : String) : Bool :=
  containsChars needle.toList hay.toList

/-- A sparse style override: the `style` dict of a rule, or the
`bg_color`-only dict written by a color scale. -/
structure StyleDelta where
  bg_color : Option String := none
  bold : Option Bool := none
deriving DecidableEq

/-- The evaluator's output (utils.py line 167): `rows` and `cells` are
Python dicts, modelled as association lists with replace-on-assign, and
`warnings` is the ordered warning log. -/
structure StyleMap where
  rows : List (ℕ × StyleDelta) := []
  cells : List ((ℕ × ℕ) × StyleDelta) := []
  warnings : List String := []
deriving DecidableEq

/-- Python dict assignment `d[k] = v`: any previous binding of `k` is
replaced. -/
def dictInsert {κ δ : Type} [DecidableEq κ] (m : List (κ × δ)) (k : κ) (v : δ) :
    List (κ × δ) :=
  m.filter (fun p => decide (p.1 ≠ k)) ++ [(k, v)]

/-- Python dict lookup `d.get(k)`. -/
def dictGet? {κ δ : Type} [DecidableEq κ] (m : List (κ × δ)) (k : κ) : Option δ :=
  (m.find? (fun p => decide (p.1 = k))).map Prod.snd

/-- The key set of a modelled dict. -/
def dictKeys {κ δ : Type} (m : List (κ × δ)) : List κ :=
  m.map Prod.fst

/-- The tabular dataset: ordered column names and rows of cell values,
each row aligned with `columns`.  Models the prepared `pd.DataFrame`
with its default contiguous 0-based index, for which
`df.index.get_loc(idx)` is the row position itself. -/
structure DataFrame where
  columns : List String
  rowsData : List (List Value)

/-- Number of data rows. -/
def DataFrame.nrows (df : DataFrame) : ℕ := df.rowsData.length

/-- Embeds `df.columns.get_loc(c)` (only reached when `c` is a column). -/
def colGetLoc : List String → String → ℕ
  | [], _ => 0
  | c0 :: rest, c => if c0 = c then 0 else colGetLoc rest c + 1

/-- Cell at row position `i`, column name `c` (only reached with
`i < nrows` and `c ∈ columns`; out of range reads a missing value). -/
def DataFrame.cell (df : DataFrame) (i : ℕ) (c : String) : Value :=
  (((df.rowsData.get? i).getD []).get? (colGetLoc df.columns c)).getD Value.null

/-- Row positions produced by `df.iterrows()`. -/
def rowIdxs (df : DataFrame) : List ℕ := List.range df.nrows

/-- The condition dict of a rule: the keys the evaluator reads, `Option`
(or an empty default) modelling an absent key.  The numeric-scale manual
bounds (`min`/`mid`/`max`) are modelled as numbers and the date-scale
manual bounds as date values; in the source both branches read the same
dict keys, each expecting its own kind. -/
structure Condition where
  type : Option String := none
  value : Option Value := none
  operator : Option String := none
  compare_to : Option String := none
  compare_column : Option String := none
  scale_type : Option String := none
  color_map : List (String × String) := []
  colors : Option (List String) := none
  mode : Option String := none
  min : Option ℚ := none
  mid : Option ℚ := none
  max : Option ℚ := none
  min_date : Option Value := none
  mid_date : Option Value := none
  max_date : Option Value := none
deriving DecidableEq

/-- A formatting rule (`rule.get("scope", "cell")`, `target_column`,
`condition`, `style`). -/
structure Rule where
  scope : Option String := none
  target_column : Option String := none
  condition : Condition := {}
  style : StyleDelta := {}
deriving DecidableEq

/-- Ambient state the evaluator reads: the current UTC instant (for
`datetime.now(sg_tz)`) and the module-global date bindings observed by
`globals().get("start_date"/"end_date")`.  The host's local timezone
offset is carried only so that theorems can state the engine never
consults it. -/
structure EvalContext where
  nowUtcSeconds : ℤ
  hostTzOffsetHours : ℤ := 0
  start_date : Option Value := none
  end_date : Option Value := none
deriving DecidableEq

/-- Embeds `sg_tz = timezone(timedelta(hours=8))` (utils.py line 10). -/
def sg_tz_offset_hours : ℤ := 8

/-- Ordinal of 1970-01-01, the UTC epoch date. -/
def epochOrdinal : ℤ := 719163

/-- Embeds `datetime.now(sg_tz).date()`: the current UTC instant shifted
by the fixed +8h offset, at date granularity. -/
def todayOrdinal (ctx : EvalContext) : ℤ :=
  (ctx.nowUtcSeconds + sg_tz_offset_hours * 3600).fdiv 86400 + epochOrdinal

/-- Embeds `globals().get(name)` for the two names the source reads. -/
def globalsGet (ctx : EvalContext) (name : String) : Option Value :=
  if name = "start_date" then ctx.start_date
  else if name = "end_date" then ctx.end_date
  else none

/-- Resolution of the comparison target of a `date_compare` condition
(utils.py lines 198–223 and 293–318).  `Except.error w` means the rule
is skipped after appending warning `w`; `rowScope` selects the row-scope
wording of the not-found warning. -/
def resolveDateTarget (ctx : EvalContext) (compare_to : Option String)
    (compare_value : Option Value) (rowScope : Bool) : Except String ℤ :=
  if compare_to = some "today" then .ok (todayOrdinal ctx)
  else if compare_to = some "start_date" ∨ compare_to = some "end_date" then
    let name := compare_to.getD ""
    match globalsGet ctx name with
    | none => .error ("compare_to=\x27" ++ name ++ "\x27 not found"
        ++ (if rowScope then " in context" else ""))
    | some v =>
      match pdToDatetime? v with
      | none => .error ("compare_to=\x27" ++ name ++ "\x27 not parseable")
      | some d => .ok d
  else if pyTruthy compare_value then
    match pdToDatetime? (compare_value.getD Value.null) with
    | none => .error ("Fixed date \x27" ++ pyStrN compare_value ++ "\x27 not parseable")
    | some d => .ok d
  else .error ("date_compare missing \x27compare_to\x27 or \x27value\x27")

/-- The five comparison operators of the matchers; any other operator
string satisfies none of the disjuncts and matches nothing. -/
def opMatches {α : Type} [LinearOrder α] (op : String) (a b : α) : Bool :=
  (decide (op = ">") && decide (b < a)) || (decide (op = ">=") && decide (b ≤ a))
    || (decide (op = "<") && decide (a < b)) || (decide (op = "<=") && decide (a ≤ b))
    || (decide (op = "==") && decide (a = b))

/-- One iteration of the `numeric` matcher's try-block: parse the cell
as a float and compare with the threshold; `false` both when `float()`
raises and when the comparison is with a non-number (`TypeError`), both
caught by the `except` that skips the row (utils.py lines 274–287). -/
def numericRowMatches (cell : Value) (op : String) (thr : Value) : Bool :=
  match pyFloat? cell, thr with
  | some x, .num t => opMatches op x t
  | _, _ => false

/-- One iteration of a date-comparison loop: parse the cell and compare
with a fixed target ordinal. -/
def dateCellMatches (df : DataFrame) (tc : String) (op : String) (target : ℤ) (i : ℕ) : Bool :=
  match pdToDatetime? (df.cell i tc) with
  | some d => opMatches op d target
  | none => false

/-- Number of rows of a column that fail date parsing (the
`parse_failures` counter of the date loops). -/
def dateParseFailures (df : DataFrame) (tc : String) : ℕ :=
  ((rowIdxs df).filter (fun i => (pdToDatetime? (df.cell i tc)).isNone)).length

/-- A Python loop of the shape `for a in idx: if p a: d[key a] = st a`
acting on one dict. -/
def insFold {α κ δ : Type} [DecidableEq κ] (idx : List α) (p : α → Bool) (key : α → κ)
    (st : α → δ) (m0 : List (κ × δ)) : List (κ × δ) :=
  idx.foldl (fun m a => if p a then dictInsert m (key a) (st a) else m) m0

/-- Row-scope `contains` loop (utils.py lines 181–185). -/
def applyRowContains (df : DataFrame) (tc search : String) (style : StyleDelta)
    (m : StyleMap) : StyleMap :=
  let newRows := insFold (rowIdxs df)
    (fun i => strContainsSub ((pyStr (df.cell i tc)).toLower) search)
    (fun i => i) (fun _ => style) m.rows
  { m with rows := newRows }

/-- Row-scope `equals` loop (utils.py lines 187–191): the cell string is
whitespace-trimmed before comparison. -/
def applyRowEquals (df : DataFrame) (tc valStr : String) (style : StyleDelta)
    (m : StyleMap) : StyleMap :=
  let newRows := insFold (rowIdxs df)
    (fun i => decide ((pyStr (df.cell i tc)).trim = valStr))
    (fun i => i) (fun _ => style) m.rows
  { m with rows := newRows }

/-- Row-scope `date_compare` loop (utils.py lines 225–249): the single
source loop both writes matches and counts parse failures; the two
effects touch disjoint components and are modelled side by side. -/
def applyRowDateCompare (df : DataFrame) (tc op : String) (target : ℤ)
    (style : StyleDelta) (m : StyleMap) : StyleMap :=
  let newRows := insFold (rowIdxs df) (dateCellMatches df tc op target)
    (fun i => i) (fun _ => style) m.rows
  let m1 := { m with rows := newRows }
  let failures := dateParseFailures df tc
  if failures ≠ 0 then
    { m1 with warnings := m1.warnings
        ++ ["date_compare on \x27" ++ tc ++ "\x27: " ++ toString failures ++ " rows unparseable"] }
  else m1

/-- Row-scope dispatch (utils.py lines 175–249), by condition-type tag. -/
def applyRowRule (df : DataFrame) (ctx : EvalContext) (tc : String) (cond : Condition)
    (style : StyleDelta) (m : StyleMap) : StyleMap :=
  if cond.type = some "contains" then
    applyRowContains df tc ((pyStrD cond.value).toLower) style m
  else if cond.type = some "equals" then
    applyRowEquals df tc (pyStrD cond.value) style m
  else if cond.type = some "date_compare" then
    match resolveDateTarget ctx cond.compare_to cond.value true with
    | .error w => { m with warnings := m.warnings ++ [w] }
    | .ok target => applyRowDateCompare df tc (cond.operator.getD ">") target style m
  else m

/-- Cell-scope `equals` loop (utils.py lines 259–263): no trimming, and
the written key carries the +1 header-row shift. -/
def applyCellEquals (df : DataFrame) (tc : String) (colIdx : ℕ) (valStr : String)
    (style : StyleDelta) (m : StyleMap) : StyleMap :=
  let newCells := insFold (rowIdxs df)
    (fun i => decide (pyStr (df.cell i tc) = valStr))
    (fun i => (i + 1, colIdx)) (fun _ => style) m.cells
  { m with cells := newCells }

/-- Cell-scope `contains` loop (utils.py lines 265–269). -/
def applyCellContains (df : DataFrame) (tc : String) (colIdx : ℕ) (search : String)
    (style : StyleDelta) (m : StyleMap) : StyleMap :=
  let newCells := insFold (rowIdxs df)
    (fun i => strContainsSub ((pyStr (df.cell i tc)).toLower) search)
    (fun i => (i + 1, colIdx)) (fun _ => style) m.cells
  { m with cells := newCells }

/-- Cell-scope `numeric` loop (utils.py lines 271–287): unparsable cells
are skipped silently. -/
def applyCellNumeric (df : DataFrame) (tc : String) (colIdx : ℕ) (op : String)
    (thr : Value) (style : StyleDelta) (m : StyleMap) : StyleMap :=
  let newCells := insFold (rowIdxs df)
    (fun i => numericRowMatches (df.cell i tc) op thr)
    (fun i => (i + 1, colIdx)) (fun _ => style) m.cells
  { m with cells := newCells }

/-- Cell-scope `date_compare` loop (utils.py lines 320–344). -/
def applyCellDateCompare (df : DataFrame) (tc : String) (colIdx : ℕ) (op : String)
    (target : ℤ) (style : StyleDelta) (m : StyleMap) : StyleMap :=
  let newCells := insFold (rowIdxs df) (dateCellMatches df tc op target)
    (fun i => (i + 1, colIdx)) (fun _ => style) m.cells
  let m1 := { m with cells := newCells }
  let failures := dateParseFailures df tc
  if failures ≠ 0 then
    { m1 with warnings := m1.warnings
        ++ ["\x27" ++ tc ++ "\x27 date comparison: " ++ toString failures ++ " invalid dates"] }
  else m1

/-- One iteration of the `date_compare_column` loop: both sides must
parse, then the operator is applied. -/
def dateColumnMatches (df : DataFrame) (tc cc op : String) (i : ℕ) : Bool :=
  match pdToDatetime? (df.cell i tc), pdToDatetime? (df.cell i cc) with
  | some d1, some d2 => opMatches op d1 d2
  | _, _ => false

/-- Rows of the `date_compare_column` loop where either side fails to
parse (its `parse_failures` counter). -/
def dateColumnFailures (df : DataFrame) (tc cc : String) : ℕ :=
  ((rowIdxs df).filter (fun i =>
    (pdToDatetime? (df.cell i tc)).isNone || (pdToDatetime? (df.cell i cc)).isNone)).length

/-- Cell-scope `date_compare_column` loop (utils.py lines 353–378). -/
def applyCellDateCompareColumn (df : DataFrame) (tc cc : String) (op : String)
    (style : StyleDelta) (m : StyleMap) : StyleMap :=
  let newCells := insFold (rowIdxs df) (dateColumnMatches df tc cc op)
    (fun i => (i + 1, colGetLoc df.columns tc)) (fun _ => style) m.cells
  let m1 := { m with cells := newCells }
  let failures := dateColumnFailures df tc cc
  if failures ≠ 0 then
    { m1 with warnings := m1.warnings
        ++ ["\x27" ++ tc ++ "\x27 vs \x27" ++ cc ++ "\x27: " ++ toString failures ++ " invalid dates"] }
  else m1

/-- Distinct unmapped stringified values of a categorical color scale,
in first-occurrence order (the Python `unmapped` set). -/
def catUnmapped (df : DataFrame) (tc : String) (cmap : List (String × String)) : List String :=
  (rowIdxs df).foldl (fun acc i =>
    let val := pyStr (df.cell i tc)
    if (dictGet? cmap val).isSome then acc
    else if val ∈ acc then acc else acc ++ [val]) []

/-- The aggregate unmapped-values warning of a categorical color scale
(utils.py lines 398–403): up to three example values, an ellipsis when
there are more than three distinct ones. -/
def catWarning (tc : String) (unmapped : List String) : String :=
  "\x27" ++ tc ++ "\x27 categorical color scale: " ++ toString unmapped.length
    ++ " unmapped values (" ++ (", ").intercalate (unmapped.take 3)
    ++ (if 3 < unmapped.length then "..." else "") ++ ")"

/-- Categorical color-scale branch with a non-empty `color_map`
(utils.py lines 387–403). -/
def applyCatScale (df : DataFrame) (tc : String) (colIdx : ℕ)
    (cmap : List (String × String)) (m : StyleMap) : StyleMap :=
  let newCells := insFold (rowIdxs df)
    (fun i => (dictGet? cmap (pyStr (df.cell i tc))).isSome)
    (fun i => (i + 1, colIdx))
    (fun i => { bg_color := dictGet? cmap (pyStr (df.cell i tc)) }) m.cells
  let m1 := { m with cells := newCells }
  let unmapped := catUnmapped df tc cmap
  if unmapped.isEmpty then m1
  else { m1 with warnings := m1.warnings ++ [catWarning tc unmapped] }

/-- The `(row position, parsed float)` pairs a numeric color scale
collects (utils.py lines 412–419; `pyFloat?` already excludes NaN). -/
def numericValues (df : DataFrame) (tc : String) : List (ℕ × ℚ) :=
  (rowIdxs df).filterMap (fun i => (pyFloat? (df.cell i tc)).map (fun v => (i, v)))

/-- The `(row position, date ordinal)` pairs a date color scale collects
(utils.py lines 447–456). -/
def dateValues (df : DataFrame) (tc : String) : List (ℕ × ℤ) :=
  (rowIdxs df).filterMap (fun i => (pdToDatetime? (df.cell i tc)).map (fun d => (i, d)))

/-- Python `min` over a non-empty list (the empty case is unreachable
behind the source's emptiness guards). -/
def pyMin {α : Type} [Inhabited α] [LinearOrder α] : List α → α
  | [] => default
  | x :: rest => rest.foldl min x

/-- Python `max` over a non-empty list. -/
def pyMax {α : Type} [Inhabited α] [LinearOrder α] : List α → α
  | [] => default
  | x :: rest => rest.foldl max x

/-- Gradient color of each collected value in row order, propagating the
first uncaught exception (the source loop raises out of the whole
evaluation). -/
def gradientColors (vals : List (ℕ × ℚ)) (minV midV maxV : ℚ) (colors : List String) :
    Except String (List (ℕ × String)) :=
  match vals with
  | [] => .ok []
  | p :: rest => do
      let bg ← get_gradient_color p.2 minV midV maxV colors
      let tail ← gradientColors rest minV midV maxV colors
      return (p.1, bg) :: tail

/-- The gradient write-loop of a numeric or date color scale (utils.py
lines 436–438 and 481–483).  The colors are computed first and the dict
writes applied second; this is equivalent to the single source loop
because a color error escapes as an exception, discarding the partially
mutated map. -/
def applyGradientCells (colIdx : ℕ) (vals : List (ℕ × ℚ)) (minV midV maxV : ℚ)
    (colors : List String) (m : StyleMap) : Except String StyleMap := do
  let colored ← gradientColors vals minV midV maxV colors
  let newCells := insFold colored (fun _ => true) (fun p => (p.1 + 1, colIdx))
    (fun p => { bg_color := some p.2 }) m.cells
  return { m with cells := newCells }

/-- Numeric color-scale branch (utils.py lines 405–438). -/
def applyNumericScale (df : DataFrame) (tc : String) (colIdx : ℕ) (cond : Condition)
    (m : StyleMap) : Except String StyleMap :=
  let colors3 := cond.colors.getD ["#00FF00", "#FFFF00", "#FF0000"]
  if colors3.length ≠ 3 then
    .ok { m with warnings := m.warnings ++ ["color_scale numeric requires exactly 3 colors"] }
  else
    let nv := numericValues df tc
    if nv.isEmpty then
      .ok { m with warnings := m.warnings ++ ["\x27" ++ tc ++ "\x27 has no valid numeric values"] }
    else if cond.mode.getD "auto" = "auto" then
      let allVals := nv.map Prod.snd
      let minV := pyMin allVals
      let maxV := pyMax allVals
      applyGradientCells colIdx nv minV ((minV + maxV) / 2) maxV colors3 m
    else
      match cond.min, cond.mid, cond.max with
      | some a, some b, some c =>
          if a < b ∧ b < c then applyGradientCells colIdx nv a b c colors3 m
          else .ok { m with warnings := m.warnings ++ ["color_scale manual requires valid min < mid < max"] }
      | _, _, _ =>
          .ok { m with warnings := m.warnings ++ ["color_scale manual requires valid min < mid < max"] }

/-- Date color-scale branch (utils.py lines 440–483). -/
def applyDateScale (df : DataFrame) (tc : String) (colIdx : ℕ) (cond : Condition)
    (m : StyleMap) : Except String StyleMap :=
  let colors3 := cond.colors.getD ["#00FF00", "#FFFF00", "#FF0000"]
  if colors3.length ≠ 3 then
    .ok { m with warnings := m.warnings ++ ["color_scale date requires exactly 3 colors"] }
  else
    let dv := dateValues df tc
    let failures := dateParseFailures df tc
    if dv.isEmpty then
      .ok { m with warnings := m.warnings ++ ["\x27" ++ tc ++ "\x27 has no valid dates"] }
    else
      let m := if failures ≠ 0 then
          { m with warnings := m.warnings
              ++ ["\x27" ++ tc ++ "\x27 date color scale: " ++ toString failures ++ " invalid dates"] }
        else m
      let dvQ := dv.map (fun p => (p.1, (p.2 : ℚ)))
      if cond.mode.getD "auto" = "auto" then
        let vals := dv.map Prod.snd
        let minV : ℚ := ((pyMin vals : ℤ) : ℚ)
        let maxV : ℚ := ((pyMax vals : ℤ) : ℚ)
        applyGradientCells colIdx dvQ minV ((minV + maxV) / 2) maxV colors3 m
      else
        match pdToDatetime? (cond.min_date.getD Value.null),
              pdToDatetime? (cond.mid_date.getD Value.null),
              pdToDatetime? (cond.max_date.getD Value.null) with
        | some a, some b, some c =>
            if a < b ∧ b < c then applyGradientCells colIdx dvQ a b c colors3 m
            else .ok { m with warnings := m.warnings ++ ["date scale requires min < mid < max"] }
        | _, _, _ =>
            .ok { m with warnings := m.warnings ++ ["date scale manual: invalid date(s)"] }

/-- Cell-scope dispatch (utils.py lines 252–483), by condition-type tag. -/
def applyCellRule (df : DataFrame) (ctx : EvalContext) (tc : String) (cond : Condition)
    (style : StyleDelta) (m : StyleMap) : Except String StyleMap :=
  let colIdx := colGetLoc df.columns tc
  if cond.type = some "equals" then
    .ok (applyCellEquals df tc colIdx (pyStrN cond.value) style m)
  else if cond.type = some "contains" then
    .ok (applyCellContains df tc colIdx ((pyStrD cond.value).toLower) style m)
  else if cond.type = some "numeric" then
    .ok (applyCellNumeric df tc colIdx (cond.operator.getD ">")
      (cond.value.getD (Value.num 0)) style m)
  else if cond.type = some "date_compare" then
    match resolveDateTarget ctx cond.compare_to cond.value false with
    | .error w => .ok { m with warnings := m.warnings ++ [w] }
    | .ok target => .ok (applyCellDateCompare df tc colIdx (cond.operator.getD ">") target style m)
  else if cond.type = some "date_compare_column" then
    match cond.compare_column with
    | none => .ok { m with warnings := m.warnings ++ ["Compare column \x27None\x27 not found"] }
    | some cc =>
        if cc = "" ∨ cc ∉ df.columns then
          .ok { m with warnings := m.warnings ++ ["Compare column \x27" ++ cc ++ "\x27 not found"] }
        else .ok (applyCellDateCompareColumn df tc cc (cond.operator.getD ">") style m)
  else if cond.type = some "color_scale" then
    let st := cond.scale_type.getD "numeric"
    if st = "categorical" then
      if cond.color_map.isEmpty then
        .ok { m with warnings := m.warnings ++ ["color_scale categorical missing \x27color_map\x27"] }
      else .ok (applyCatScale df tc colIdx cond.color_map m)
    else if st = "numeric" then applyNumericScale df tc colIdx cond m
    else if st = "date" then applyDateScale df tc colIdx cond m
    else .ok m
  else .ok m

/-- One iteration of the rule loop (utils.py lines 169–483): scope
dispatch and the silent skip of a missing or falsy target column. -/
def applyRule (df : DataFrame) (ctx : EvalContext) (m : StyleMap) (rule : Rule) :
    Except String StyleMap :=
  let scope := rule.scope.getD "cell"
  if scope = "row" then
    match rule.target_column with
    | none => .ok m
    | some tc =>
        if tc = "" ∨ tc ∉ df.columns then .ok m
        else .ok (applyRowRule df ctx tc rule.condition rule.style m)
  else if scope = "cell" then
    match rule.target_column with
    | none => .ok m
    | some tc =>
        if tc = "" ∨ tc ∉ df.columns then .ok m
        else applyCellRule df ctx tc rule.condition rule.style m
  else .ok m

/-- Embeds `evaluate_formatting_rules` (utils.py lines 159–485).
`Except.error` is an exception escaping the evaluator. -/
def evaluate_formatting_rules (df : DataFrame) (rules : List Rule) (ctx : EvalContext) :
    Except String StyleMap :=
  if rules.isEmpty then .ok {}
  else rules.foldlM (applyRule df ctx) ({} : StyleMap)

/-- Decidable equality of `Except` results, used to evaluate the
embedding at concrete inputs. -/
instance instDecEqExcept {ε α : Type} [DecidableEq ε] [DecidableEq α] :
    DecidableEq (Except ε α) := fun a b =>
  match a, b with
  | .error e1, .error e2 =>
      if h : e1 = e2 then .isTrue (by rw [h])
      else .isFalse (by intro he; injection he; exact h (by assumption))
  | .ok x, .ok y =>
      if h : x = y then .isTrue (by rw [h])
      else .isFalse (by intro he; injection he; exact h (by assumption))
  | .error _, .ok _ => .isFalse (fun he => Except.noConfusion he)
  | .ok _, .error _ => .isFalse (fun he => Except.noConfusion he)

/-! Concrete fixtures used by witnesses and counterexamples. -/

/-- A fixed evaluation instant — 2025-10-12 00:00:00 UTC — with a host
timezone offset different from the engine's fixed +8. -/
def ctxW : EvalContext := { nowUtcSeconds := 1760227200, hostTzOffsetHours := 5 }

/-- A cell-scope `equals` rule. -/
def cellEqualsRule (tc : String) (v : Value) (style : StyleDelta) : Rule :=
  let cond : Condition := { type := some "equals", value := some v }
  { scope := some "cell", target_column := some tc, condition := cond, style := style }

/-- A row-scope `equals` rule. -/
def rowEqualsRule (tc : String) (v : Value) (style : StyleDelta) : Rule :=
  let cond : Condition := { type := some "equals", value := some v }
  { scope := some "row", target_column := some tc, condition := cond, style := style }

/-- A cell-scope `numeric` rule. -/
def cellNumericRule (tc op : String) (v : Value) (style : StyleDelta) : Rule :=
  let cond : Condition := { type := some "numeric", operator := some op, value := some v }
  { scope := some "cell", target_column := some tc, condition := cond, style := style }

/-- A cell-scope `date_compare_column` rule. -/
def dateCompareColumnRule (tc cc op : String) (style : StyleDelta) : Rule :=
  let cond : Condition := { type := some "date_compare_column", operator := some op, compare_column := some cc }
  { scope := some "cell", target_column := some tc, condition := cond, style := style }

/-- A cell-scope categorical `color_scale` rule. -/
def catScaleRule (tc : String) (cmap : List (String × String)) : Rule :=
  let cond : Condition := { type := some "color_scale", scale_type := some "categorical", color_map := cmap }
  { scope := some "cell", target_column := some tc, condition := cond }

/-- A cell-scope `date_compare` rule. -/
def dateCompareCellRule (tc op : String) (cto : Option String) (v : Option Value)
    (style : StyleDelta) : Rule :=
  let cond : Condition := { type := some "date_compare", operator := some op, compare_to := cto, value := v }
  { scope := some "cell", target_column := some tc, condition := cond, style := style }

/-- The dataset of the exception-escape failing input: one numeric cell
whose value falls strictly between the manual `min` and `mid` stops. -/
def dfC1w : DataFrame := { columns := ["a"], rowsData := [[Value.num 1]] }

/-- The failing rule: a manual numeric color scale whose first color
stop is not parsable hex. -/
def ruleC1w : Rule :=
  let cond : Condition := { type := some "color_scale", scale_type := some "numeric", mode := some "manual", min := some 0, mid := some 2, max := some 4, colors := some ["zz", "#ffff00", "#ff0000"] }
  { scope := some "cell", target_column := some "a", condition := cond }

/-- A numeric auto color-scale rule on column `a` with default colors. -/
def ruleCSnum : Rule :=
  let cond : Condition := { type := some "color_scale", scale_type := some "numeric" }
  { scope := some "cell", target_column := some "a", condition := cond }

/-- A one-column, one-row dataset used by several witnesses. -/
def dfXw : DataFrame := { columns := ["a"], rowsData := [[Value.str "x"]] }

/-- A one-column dataset whose single cell needs trimming to match. -/
def dfTrimW : DataFrame := { columns := ["a"], rowsData := [[Value.str " x "]] }

/-- The spec §8 categorical dataset: values `Active` and `Unknown`. -/
def dfCatW : DataFrame :=
  { columns := ["st"], rowsData := [[Value.str "Active"], [Value.str "Unknown"]] }

/-- A zero-row dataset with one declared column. -/
def dfEmptyW : DataFrame := { columns := ["a"], rowsData := [] }

/-- Expected style map for the spec §8 categorical example. -/
def mapCatW : StyleMap :=
  { cells := [((1, 0), { bg_color := some "#111111" })], warnings := ["\x27st\x27 categorical color scale: 1 unmapped values (Unknown)"] }

/-- Bounds on the keys a style map may hold for a dataset: cell keys are
pre-shifted by the +1 header row (first component in `1..nrows`), row
keys are unshifted 0-based row positions (`< nrows`). -/
def styleKeysOk (df : DataFrame) (m : StyleMap) : Prop :=
  (∀ p ∈ m.cells, 1 ≤ p.1.1 ∧ p.1.1 ≤ df.nrows) ∧ (∀ q ∈ m.rows, q.1 < df.nrows)

/-! Lemmas about the modelled dicts and write loops. -/

lemma find?_append {α : Type} (p : α → Bool) (l1 l2 : List α) :
    (l1 ++ l2).find? p = ((l1.find? p).orElse (fun _ => l2.find? p)) := by
  induction l1 with
  | nil => simp
  | cons a rest ih =>
      by_cases h : p a
      · simp [List.find?, h]
      · simp only [List.cons_append, List.find?]
        rw [Bool.of_not_eq_true h]
        simpa using ih

lemma find?_filter_of_imp {α : Type} (p q : α → Bool) (l : List α)
    (hpq : ∀ x, p x = true → q x = true) :
    (l.filter q).find? p = l.find? p := by
  induction l with
  | nil => rfl
  | cons a rest ih =>
      by_cases hq : q a
      · by_cases hp : p a
        · simp [List.filter, hq, List.find?, hp]
        · simp only [List.filter, hq, List.find?]
          rw [Bool.of_not_eq_true hp]
          simpa using ih
      · have hp : p a = false := by
          cases hpa : p a
          · rfl
          · exact absurd (hpq a hpa) hq
        simp only [List.filter, Bool.of_not_eq_true hq, List.find?, hp]
        exact ih

lemma dictGet?_insert_self {κ δ : Type} [DecidableEq κ] (m : List (κ × δ)) (k : κ) (v : δ) :
    dictGet? (dictInsert m k v) k = some v := by
  unfold dictGet? dictInsert
  rw [find?_append]
  have h1 : (m.filter (fun p => decide (p.1 ≠ k))).find? (fun p => decide (p.1 = k)) = none := by
    rw [List.find?_eq_none]
    intro x hx
    have := (List.mem_filter.mp hx).2
    simp at this ⊢
    exact this
  rw [h1]
  simp [List.find?]

lemma dictGet?_insert_ne {κ δ : Type} [DecidableEq κ] (m : List (κ × δ)) (k k' : κ) (v : δ)
    (h : k' ≠ k) : dictGet? (dictInsert m k v) k' = dictGet? m k' := by
  unfold dictGet? dictInsert
  rw [find?_append]
  rw [find?_filter_of_imp]
  · have h2 : ([(k, v)].find? (fun p => decide (p.1 = k'))) = none := by
      simp [List.find?, Ne.symm h]
    rw [h2]
    cases m.find? (fun p => decide (p.1 = k')) <;> simp [Option.orElse]
  · intro x hx
    simp at hx ⊢
    rw [hx]
    exact h

lemma mem_dictKeys_insert {κ δ : Type} [DecidableEq κ] (m : List (κ × δ)) (k k' : κ) (v : δ) :
    k' ∈ dictKeys (dictInsert m k v) ↔ k' = k ∨ k' ∈ dictKeys m := by
  unfold dictKeys dictInsert
  simp only [List.map_append, List.mem_append, List.mem_map, List.mem_filter]
  constructor
  · rintro (⟨p, ⟨hp, hne⟩, rfl⟩ | h)
    · exact Or.inr ⟨p, hp, rfl⟩
    · simp at h
      exact Or.inl h.symm
  · rintro (rfl | ⟨p, hp, rfl⟩)
    · simp
    · by_cases he : p.1 = k
      · exact Or.inr (by simp [he])
      · exact Or.inl ⟨p, ⟨hp, by simpa using he⟩, rfl⟩

lemma mem_insFold_sub {α κ δ : Type} [DecidableEq κ] (idx : List α) (p : α → Bool)
    (key : α → κ) (st : α → δ) (m0 : List (κ × δ)) (x : κ × δ)
    (hx : x ∈ insFold idx p key st m0) :
    x ∈ m0 ∨ ∃ a ∈ idx, p a = true ∧ x = (key a, st a) := by
  induction idx generalizing m0 with
  | nil => exact Or.inl hx
  | cons a rest ih =>
      have hx' : x ∈ insFold rest p key st (if p a then dictInsert m0 (key a) (st a) else m0) := hx
      rcases ih _ hx' with h | ⟨b, hb, hpb, rfl⟩
      · by_cases hp : p a
        · rw [if_pos hp] at h
          unfold dictInsert at h
          rcases List.mem_append.mp h with h1 | h2
          · exact Or.inl (List.mem_of_mem_filter h1)
          · simp at h2
            exact Or.inr ⟨a, by simp, hp, h2⟩
        · rw [if_neg hp] at h
          exact Or.inl h
      · exact Or.inr ⟨b, List.mem_cons_of_mem a hb, hpb, rfl⟩

lemma dictGet?_insFold_not_written {α κ δ : Type} [DecidableEq κ] (idx : List α)
    (p : α → Bool) (key : α → κ) (st : α → δ) (m0 : List (κ × δ)) (k : κ)
    (h : ∀ a ∈ idx, p a = true → key a ≠ k) :
    dictGet? (insFold idx p key st m0) k = dictGet? m0 k := by
  induction idx generalizing m0 with
  | nil => rfl
  | cons a rest ih =>
      have step : dictGet? (insFold rest p key st (if p a then dictInsert m0 (key a) (st a) else m0)) k
          = dictGet? (if p a then dictInsert m0 (key a) (st a) else m0) k :=
        ih _ (fun b hb hpb => h b (List.mem_cons_of_mem a hb) hpb)
      refine step.trans ?_
      by_cases hp : p a
      · rw [if_pos hp]
        exact dictGet?_insert_ne m0 (key a) k (st a) (fun he => h a (by simp) hp he.symm)
      · rw [if_neg hp]

lemma mem_dictKeys_insFold {α κ δ : Type} [DecidableEq κ] (idx : List α) (p : α → Bool)
    (key : α → κ) (st : α → δ) (m0 : List (κ × δ)) (k : κ) :
    k ∈ dictKeys (insFold idx p key st m0) ↔
      (∃ a ∈ idx, p a = true ∧ k = key a) ∨ k ∈ dictKeys m0 := by
  induction idx generalizing m0 with
  | nil => simp [insFold]
  | cons a rest ih =>
      have step : insFold (a :: rest) p key st m0
          = insFold rest p key st (if p a then dictInsert m0 (key a) (st a) else m0) := rfl
      rw [step, ih]
      by_cases hp : p a
      · rw [if_pos hp, mem_dictKeys_insert]
        constructor
        · rintro (⟨b, hb, hpb, rfl⟩ | rfl | h)
          · exact Or.inl ⟨b, List.mem_cons_of_mem a hb, hpb, rfl⟩
          · exact Or.inl ⟨a, by simp, hp, rfl⟩
          · exact Or.inr h
        · rintro (⟨b, hb, hpb, rfl⟩ | h)
          · rcases List.mem_cons.mp hb with rfl | hb'
            · exact Or.inr (Or.inl rfl)
            · exact Or.inl ⟨b, hb', hpb, rfl⟩
          · exact Or.inr (Or.inr h)
      · rw [if_neg hp]
        constructor
        · rintro (⟨b, hb, hpb, rfl⟩ | h)
          · exact Or.inl ⟨b, List.mem_cons_of_mem a hb, hpb, rfl⟩
          · exact Or.inr h
        · rintro (⟨b, hb, hpb, rfl⟩ | h)
          · rcases List.mem_cons.mp hb with rfl | hb'
            · exact absurd hpb (by simpa using hp)
            · exact Or.inl ⟨b, hb', hpb, rfl⟩
          · exact Or.inr h

lemma dictGet?_insFold_written {α κ δ : Type} [DecidableEq κ] (idx : List α) (p : α → Bool)
    (key : α → κ) (st : α → δ) (m0 : List (κ × δ)) (a : α) (ha : a ∈ idx) (hp : p a = true)
    (hinj : ∀ b ∈ idx, p b = true → key b = key a → b = a) (hnd : idx.Nodup) :
    dictGet? (insFold idx p key st m0) (key a) = some (st a) := by
  induction idx generalizing m0 with
  | nil => cases ha
  | cons c rest ih =>
      have step : insFold (c :: rest) p key st m0
          = insFold rest p key st (if p c then dictInsert m0 (key c) (st c) else m0) := rfl
      rw [step]
      rcases List.mem_cons.mp ha with rfl | ha'
      · have hrest : ∀ b ∈ rest, p b = true → key b ≠ key a := by
          intro b hb hpb he
          have hba : b = a := hinj b (List.mem_cons_of_mem a hb) hpb he
          exact (List.nodup_cons.mp hnd).1 (hba ▸ hb)
        rw [dictGet?_insFold_not_written rest p key st _ (key a) hrest, if_pos hp]
        exact dictGet?_insert_self m0 (key a) (st a)
      · exact ih _ ha' (fun b hb hpb he => hinj b (List.mem_cons_of_mem c hb) hpb he)
          (List.nodup_cons.mp hnd).2

lemma mem_rowIdxs (df : DataFrame) (i : ℕ) : i ∈ rowIdxs df ↔ i < df.nrows :=
  List.mem_range

lemma nodup_rowIdxs (df : DataFrame) : (rowIdxs df).Nodup :=
  List.nodup_range _

lemma evaluate_singleton (df : DataFrame) (ctx : EvalContext) (r : Rule) :
    evaluate_formatting_rules df [r] ctx = applyRule df ctx {} r := by
  unfold evaluate_formatting_rules
  rw [if_neg (by simp)]
  show (applyRule df ctx {} r).bind (fun m => Except.pure m) = applyRule df ctx {} r
  cases applyRule df ctx {} r <;> rfl

lemma evaluate_pair (df : DataFrame) (ctx : EvalContext) (r1 r2 : Rule) (m1 : StyleMap)
    (h : applyRule df ctx {} r1 = .ok m1) :
    evaluate_formatting_rules df [r1, r2] ctx = applyRule df ctx m1 r2 := by
  unfold evaluate_formatting_rules
  rw [if_neg (by simp)]
  show ((applyRule df ctx {} r1).bind fun m =>
      (applyRule df ctx m r2).bind fun m' => Except.pure m') = applyRule df ctx m1 r2
  rw [h]
  show ((applyRule df ctx m1 r2).bind fun m' => Except.pure m') = applyRule df ctx m1 r2
  cases applyRule df ctx m1 r2 <;> rfl

/-! Lemmas about the color helpers and the gradient. -/

lemma except_bind_ok {ε α β : Type} (x : α) (f : α → Except ε β) :
    (Except.ok x >>= f) = f x := rfl

lemma except_bind_err {ε α β : Type} (e : ε) (f : α → Except ε β) :
    ((Except.error e : Except ε α) >>= f) = .error e := rfl

lemma hex_to_rgb_cases (c : String) : (∃ rgb, hex_to_rgb c = .ok rgb) ∨
    hex_to_rgb c = .error ("ValueError: invalid literal for int with base 16: " ++ c) := by
  simp only [hex_to_rgb]
  cases parseHex? (strSlice (String.mk (lstripChar c '#').toList) 0 2) <;>
    cases parseHex? (strSlice (String.mk (lstripChar c '#').toList) 2 4) <;>
      cases parseHex? (strSlice (String.mk (lstripChar c '#').toList) 4 6) <;>
        simp

lemma valueError_ne_zde (c : String) :
    ("ValueError: invalid literal for int with base 16: " ++ c) ≠ "ZeroDivisionError" := by
  intro h
  have h2 := congrArg String.length h
  rw [String.length_append] at h2
  have hL : ("ValueError: invalid literal for int with base 16: " : String).length = 50 := rfl
  have hR : ("ZeroDivisionError" : String).length = 17 := rfl
  rw [hL, hR] at h2
  omega

lemma interpolate_ne_zde (a b : String) (f : ℚ) :
    interpolate_color a b f ≠ .error ("ZeroDivisionError") := by
  unfold interpolate_color
  rcases hex_to_rgb_cases a with ⟨rgb1, ha⟩ | ha
  · rw [ha, except_bind_ok]
    rcases hex_to_rgb_cases b with ⟨rgb2, hb⟩ | hb
    · rw [hb, except_bind_ok]
      intro h
      exact Except.noConfusion h
    · rw [hb, except_bind_err]
      intro h
      injection h with he
      exact valueError_ne_zde b he
  · rw [ha, except_bind_err]
    intro h
    injection h with he
    exact valueError_ne_zde a he

lemma pyIndex_ne_zde (l : List String) (i : ℕ) :
    pyIndex l i ≠ .error ("ZeroDivisionError") := by
  unfold pyIndex
  cases l.get? i with
  | none =>
      intro h
      injection h with he
      exact absurd he (by decide)
  | some s => intro h; exact Except.noConfusion h

lemma pyDiv_of_ne (a b : ℚ) (h : b ≠ 0) : pyDiv a b = .ok (a / b) := by
  unfold pyDiv
  rw [if_neg h]

lemma interpolate_channels (cA cB : String) (f : ℚ) (r1 g1 b1 r2 g2 b2 : ℕ)
    (hA : hex_to_rgb cA = .ok (r1, g1, b1)) (hB : hex_to_rgb cB = .ok (r2, g2, b2)) :
    interpolate_color cA cB f = .ok ("#"
      ++ toHex2 (pyInt ((r1 : ℚ) + ((r2 : ℚ) - (r1 : ℚ)) * f))
      ++ toHex2 (pyInt ((g1 : ℚ) + ((g2 : ℚ) - (g1 : ℚ)) * f))
      ++ toHex2 (pyInt ((b1 : ℚ) + ((b2 : ℚ) - (b1 : ℚ)) * f))) := by
  unfold interpolate_color
  rw [hA, except_bind_ok, hB, except_bind_ok]
  rfl

lemma gradient_le_min (v mn md mx : ℚ) (colors : List String) (h : v ≤ mn) :
    get_gradient_color v mn md mx colors = pyIndex colors 0 := by
  unfold get_gradient_color
  rw [if_pos h]

lemma gradient_ge_max (v mn md mx : ℚ) (colors : List String) (h1 : ¬ v ≤ mn) (h2 : mx ≤ v) :
    get_gradient_color v mn md mx colors = pyIndex colors 2 := by
  unfold get_gradient_color
  rw [if_neg h1, if_pos h2]

lemma gradient_lo_blend (v mn md mx : ℚ) (c0 c1 c2 : String)
    (h1 : mn < v) (h2 : v < mx) (h3 : v ≤ md) :
    get_gradient_color v mn md mx [c0, c1, c2]
      = interpolate_color c0 c1 ((v - mn) / (md - mn)) := by
  unfold get_gradient_color
  rw [if_neg (not_le.mpr h1), if_neg (not_le.mpr h2), if_pos h3]
  rw [pyDiv_of_ne _ _ (sub_ne_zero.mpr (ne_of_gt (lt_of_lt_of_le h1 h3)))]
  rfl

lemma gradient_hi_blend (v mn md mx : ℚ) (c0 c1 c2 : String)
    (h1 : mn < v) (h2 : v < mx) (h3 : ¬ v ≤ md) :
    get_gradient_color v mn md mx [c0, c1, c2]
      = interpolate_color c1 c2 ((v - md) / (mx - md)) := by
  unfold get_gradient_color
  rw [if_neg (not_le.mpr h1), if_neg (not_le.mpr h2), if_neg h3]
  rw [pyDiv_of_ne _ _ (sub_ne_zero.mpr (ne_of_gt (lt_trans (not_le.mp h3) h2)))]
  rfl

/-- C5 (amended): the gradient is the piecewise-linear blend the
specification describes, except that each RGB channel of a blend is
truncated with Python `int()` (not rounded), and the mid-point value
returns `c1` reformatted as normalized two-digit lower-case hex (the
end-point values return `c0`/`c2` verbatim). -/
theorem claim_C5_gradient_piecewise (v mn md mx : ℚ) (c0 c1 c2 : String)
    (hmn : mn < md) (hmx : md < mx) :
    (v ≤ mn → get_gradient_color v mn md mx [c0, c1, c2] = .ok c0) ∧
    (mx ≤ v → get_gradient_color v mn md mx [c0, c1, c2] = .ok c2) ∧
    (mn < v → v ≤ md → get_gradient_color v mn md mx [c0, c1, c2]
      = interpolate_color c0 c1 ((v - mn) / (md - mn))) ∧
    (md < v → v < mx → get_gradient_color v mn md mx [c0, c1, c2]
      = interpolate_color c1 c2 ((v - md) / (mx - md))) ∧
    (∀ (cA cB : String) (f : ℚ) (r1 g1 b1 r2 g2 b2 : ℕ),
      hex_to_rgb cA = .ok (r1, g1, b1) → hex_to_rgb cB = .ok (r2, g2, b2) →
      interpolate_color cA cB f = .ok ("#"
        ++ toHex2 (pyInt ((r1 : ℚ) + ((r2 : ℚ) - (r1 : ℚ)) * f))
        ++ toHex2 (pyInt ((g1 : ℚ) + ((g2 : ℚ) - (g1 : ℚ)) * f))
        ++ toHex2 (pyInt ((b1 : ℚ) + ((b2 : ℚ) - (b1 : ℚ)) * f)))) ∧
    (get_gradient_color mn mn md mx [c0, c1, c2] = .ok c0) ∧
    (get_gradient_color mx mn md mx [c0, c1, c2] = .ok c2) ∧
    (∀ r0 g0 b0 r1 g1 b1 : ℕ, hex_to_rgb c0 = .ok (r0, g0, b0) →
      hex_to_rgb c1 = .ok (r1, g1, b1) →
      get_gradient_color md mn md mx [c0, c1, c2]
        = .ok (rgb_to_hex ((r1 : ℚ), (g1 : ℚ), (b1 : ℚ)))) := by
  refine ⟨?_, ?_, ?_, ?_, ?_, ?_, ?_, ?_⟩
  · intro h
    rw [gradient_le_min v mn md mx _ h]
    rfl
  · intro h
    rw [gradient_ge_max v mn md mx _ (not_le.mpr (lt_of_lt_of_le (lt_trans hmn hmx) h)) h]
    rfl
  · intro h1 h2
    exact gradient_lo_blend v mn md mx c0 c1 c2 h1 (lt_of_le_of_lt h2 hmx) h2
  · intro h1 h2
    exact gradient_hi_blend v mn md mx c0 c1 c2 (lt_trans hmn h1) h2 (not_le.mpr h1)
  · intro cA cB f r1 g1 b1 r2 g2 b2 hA hB
    exact interpolate_channels cA cB f r1 g1 b1 r2 g2 b2 hA hB
  · rw [gradient_le_min mn mn md mx _ le_rfl]
    rfl
  · rw [gradient_ge_max mx mn md mx _ (not_le.mpr (lt_trans hmn hmx)) le_rfl]
    rfl
  · intro r0 g0 b0 r1 g1 b1 h0 hc1
    rw [gradient_lo_blend md mn md mx c0 c1 c2 hmn hmx le_rfl]
    rw [div_self (sub_ne_zero.mpr (ne_of_gt hmn))]
    rw [interpolate_channels c0 c1 1 r0 g0 b0 r1 g1 b1 h0 hc1]
    have er : (r0 : ℚ) + ((r1 : ℚ) - (r0 : ℚ)) * 1 = (r1 : ℚ) := by ring
    have eg : (g0 : ℚ) + ((g1 : ℚ) - (g0 : ℚ)) * 1 = (g1 : ℚ) := by ring
    have eb : (b0 : ℚ) + ((b1 : ℚ) - (b0 : ℚ)) * 1 = (b1 : ℚ) := by ring
    rw [er, eg, eb]
    rfl

/-- Witness for C5 at `min = 0 < mid = 2 < max = 4` with the stops
`#000000`, `#0000ff`, `#ffffff`. -/
theorem claim_C5_witness :
    get_gradient_color 0 0 2 4 ["#000000", "#0000ff", "#ffffff"] = .ok "#000000" ∧
    get_gradient_color 4 0 2 4 ["#000000", "#0000ff", "#ffffff"] = .ok "#ffffff" ∧
    get_gradient_color 1 0 2 4 ["#000000", "#0000ff", "#ffffff"]
      = interpolate_color "#000000" "#0000ff" ((1 - 0) / (2 - 0)) ∧
    get_gradient_color 3 0 2 4 ["#000000", "#0000ff", "#ffffff"]
      = interpolate_color "#0000ff" "#ffffff" ((3 - 2) / (4 - 2)) ∧
    get_gradient_color 2 0 2 4 ["#000000", "#0000ff", "#ffffff"]
      = .ok (rgb_to_hex ((0 : ℚ), (0 : ℚ), (255 : ℚ))) := by
  refine ⟨?_, ?_, ?_, ?_, ?_⟩
  · exact (claim_C5_gradient_piecewise 0 0 2 4 "#000000" "#0000ff" "#ffffff"
      (by norm_num) (by norm_num)).1 le_rfl
  · exact (claim_C5_gradient_piecewise 4 0 2 4 "#000000" "#0000ff" "#ffffff"
      (by norm_num) (by norm_num)).2.1 le_rfl
  · exact (claim_C5_gradient_piecewise 1 0 2 4 "#000000" "#0000ff" "#ffffff"
      (by norm_num) (by norm_num)).2.2.1 (by norm_num) (by norm_num)
  · exact (claim_C5_gradient_piecewise 3 0 2 4 "#000000" "#0000ff" "#ffffff"
      (by norm_num) (by norm_num)).2.2.2.1 (by norm_num) (by norm_num)
  · exact (claim_C5_gradient_piecewise 2 0 2 4 "#000000" "#0000ff" "#ffffff"
      (by norm_num) (by norm_num)).2.2.2.2.2.2.2 0 0 0 0 0 255
      (by with_unfolding_all decide) (by with_unfolding_all decide)

/-- C5 counterexample: at `value = 1`, `min = 0`, `mid = 2`, `max = 4`
the blend factor is `1/2` and the blue channel is `127.5`; the code
truncates to `#00007f` while the specification's `round` formula gives
`#000080`.  Moreover `gradient(mid, ...)` is not the literal middle stop
when that stop is written in upper case. -/
theorem claim_C5_counterexample :
    get_gradient_color 1 0 2 4 ["#000000", "#0000ff", "#ffffff"] = .ok "#00007f" ∧
    interpolate_color_spec "#000000" "#0000ff" ((1 - 0) / (2 - 0)) = .ok "#000080" ∧
    ("#00007f" : String) ≠ "#000080" ∧
    get_gradient_color 2 0 2 4 ["#000000", "#FFFF00", "#ffffff"] = .ok "#ffff00" ∧
    ("#ffff00" : String) ≠ "#FFFF00" := by
  with_unfolding_all decide

/-- C10: with `min ≤ mid ≤ max` the gradient never reaches a division
by zero — the division by `mid - min` is guarded by `min < value ≤ mid`
and the one by `max - mid` by `mid < value < max`; and in the fully
degenerate case `min = mid = max` every value takes the first or the
last stop without evaluating either quotient. -/
theorem claim_C10_no_div_by_zero (v mn md mx : ℚ) (colors : List String)
    (h1 : mn ≤ md) (h2 : md ≤ mx) :
    get_gradient_color v mn md mx colors ≠ .error ("ZeroDivisionError") ∧
    (∀ c0 c1 c2 : String, get_gradient_color v mn mn mn [c0, c1, c2] = .ok c0 ∨
      get_gradient_color v mn mn mn [c0, c1, c2] = .ok c2) := by
  constructor
  · unfold get_gradient_color
    by_cases hb1 : v ≤ mn
    · rw [if_pos hb1]
      exact pyIndex_ne_zde colors 0
    · rw [if_neg hb1]
      by_cases hb2 : mx ≤ v
      · rw [if_pos hb2]
        exact pyIndex_ne_zde colors 2
      · rw [if_neg hb2]
        by_cases hb3 : v ≤ md
        · rw [if_pos hb3]
          rw [pyDiv_of_ne _ _ (sub_ne_zero.mpr (ne_of_gt (lt_of_lt_of_le (not_le.mp hb1) hb3)))]
          rw [except_bind_ok]
          cases hc0 : pyIndex colors 0 with
          | error e =>
              rw [except_bind_err]
              intro h
              injection h with he
              subst he
              exact pyIndex_ne_zde colors 0 hc0
          | ok c0 =>
              rw [except_bind_ok]
              cases hc1 : pyIndex colors 1 with
              | error e =>
                  rw [except_bind_err]
                  intro h
                  injection h with he
                  subst he
                  exact pyIndex_ne_zde colors 1 hc1
              | ok c1 =>
                  rw [except_bind_ok]
                  exact interpolate_ne_zde c0 c1 _
        · rw [if_neg hb3]
          rw [pyDiv_of_ne _ _ (sub_ne_zero.mpr (ne_of_gt (lt_trans (not_le.mp hb3) (not_le.mp hb2))))]
          rw [except_bind_ok]
          cases hc1 : pyIndex colors 1 with
          | error e =>
              rw [except_bind_err]
              intro h
              injection h with he
              subst he
              exact pyIndex_ne_zde colors 1 hc1
          | ok c1 =>
              rw [except_bind_ok]
              cases hc2 : pyIndex colors 2 with
              | error e =>
                  rw [except_bind_err]
                  intro h
                  injection h with he
                  subst he
                  exact pyIndex_ne_zde colors 2 hc2
              | ok c2 =>
                  rw [except_bind_ok]
                  exact interpolate_ne_zde c1 c2 _
  · intro c0 c1 c2
    unfold get_gradient_color
    by_cases hb1 : v ≤ mn
    · rw [if_pos hb1]
      exact Or.inl rfl
    · rw [if_neg hb1, if_pos (le_of_lt (not_le.mp hb1))]
      exact Or.inr rfl

/-- Witness for C10 at `min = 0 ≤ mid = 1 ≤ max = 2`. -/
theorem claim_C10_witness :
    get_gradient_color 5 0 1 2 ["#000000", "#111111", "#222222"]
        ≠ .error ("ZeroDivisionError") ∧
    (get_gradient_color 5 0 0 0 ["#000000", "#111111", "#222222"] = .ok "#000000" ∨
      get_gradient_color 5 0 0 0 ["#000000", "#111111", "#222222"] = .ok "#222222") :=
  ⟨(claim_C10_no_div_by_zero 5 0 1 2 ["#000000", "#111111", "#222222"]
      (by norm_num) (by norm_num)).1,
    (claim_C10_no_div_by_zero 5 0 1 2 ["#000000", "#111111", "#222222"]
      (by norm_num) (by norm_num)).2 "#000000" "#111111" "#222222"⟩

/-! Unfolding lemmas for the rule loop, and per-condition
characterizations. -/

lemma applyRule_cell (df : DataFrame) (ctx : EvalContext) (m : StyleMap) (tc : String)
    (cond : Condition) (style : StyleDelta) (htc : tc ∈ df.columns) (hne : tc ≠ "") :
    applyRule df ctx m { scope := some "cell", target_column := some tc, condition := cond, style := style }
      = applyCellRule df ctx tc cond style m := by
  simp only [applyRule, Option.getD_some]
  rw [if_neg (by decide), if_pos (by decide)]
  rw [if_neg (by simp [hne, htc])]

lemma applyRule_row (df : DataFrame) (ctx : EvalContext) (m : StyleMap) (tc : String)
    (cond : Condition) (style : StyleDelta) (htc : tc ∈ df.columns) (hne : tc ≠ "") :
    applyRule df ctx m { scope := some "row", target_column := some tc, condition := cond, style := style }
      = .ok (applyRowRule df ctx tc cond style m) := by
  simp only [applyRule, Option.getD_some]
  rw [if_pos (by decide)]
  rw [if_neg (by simp [hne, htc])]

lemma applyRule_missing_target (df : DataFrame) (ctx : EvalContext) (m : StyleMap)
    (rule : Rule) (h : ∀ tc, rule.target_column = some tc → tc = "" ∨ tc ∉ df.columns) :
    applyRule df ctx m rule = .ok m := by
  simp only [applyRule]
  by_cases hs1 : rule.scope.getD "cell" = "row"
  · rw [if_pos hs1]
    cases ht : rule.target_column with
    | none => rfl
    | some tc =>
        show (if tc = "" ∨ tc ∉ df.columns then Except.ok m
          else Except.ok (applyRowRule df ctx tc rule.condition rule.style m)) = Except.ok m
        rw [if_pos (h tc ht)]
  · rw [if_neg hs1]
    by_cases hs2 : rule.scope.getD "cell" = "cell"
    · rw [if_pos hs2]
      cases ht : rule.target_column with
      | none => rfl
      | some tc =>
          show (if tc = "" ∨ tc ∉ df.columns then Except.ok m
            else applyCellRule df ctx tc rule.condition rule.style m) = Except.ok m
          rw [if_pos (h tc ht)]
    · rw [if_neg hs2]

lemma rowEquals_characterization (df : DataFrame) (ctx : EvalContext) (tc : String)
    (v : Value) (style : StyleDelta) (htc : tc ∈ df.columns) (hne : tc ≠ "") :
    ∃ mr, evaluate_formatting_rules df [rowEqualsRule tc v style] ctx = .ok mr ∧
      ∀ i, (i ∈ dictKeys mr.rows ↔ i < df.nrows ∧ (pyStr (df.cell i tc)).trim = pyStr v) := by
  rw [evaluate_singleton]
  simp only [rowEqualsRule]
  rw [applyRule_row df ctx {} tc _ style htc hne]
  refine ⟨_, rfl, ?_⟩
  intro i
  simp only [applyRowRule, applyRowEquals]
  rw [if_neg (by decide), if_pos (by decide)]
  rw [mem_dictKeys_insFold]
  simp [mem_rowIdxs, pyStrD, dictKeys]

lemma cellEquals_characterization (df : DataFrame) (ctx : EvalContext) (tc : String)
    (v : Value) (style : StyleDelta) (htc : tc ∈ df.columns) (hne : tc ≠ "") :
    ∃ mc, evaluate_formatting_rules df [cellEqualsRule tc v style] ctx = .ok mc ∧
      ∀ r c, ((r, c) ∈ dictKeys mc.cells ↔
        ∃ i, i < df.nrows ∧ pyStr (df.cell i tc) = pyStr v ∧ r = i + 1
          ∧ c = colGetLoc df.columns tc) := by
  rw [evaluate_singleton]
  simp only [cellEqualsRule]
  rw [applyRule_cell df ctx {} tc _ style htc hne]
  simp only [applyCellRule]
  rw [if_pos (by decide)]
  refine ⟨_, rfl, ?_⟩
  intro r c
  simp only [applyCellEquals]
  rw [mem_dictKeys_insFold]
  simp [mem_rowIdxs, pyStrN, dictKeys, Prod.ext_iff]

/-- C1 is a code bug: the claim says no exception ever escapes the
evaluator, but a numeric color-scale rule whose first color stop is not
valid hex makes `int(_, 16)` raise a `ValueError` that no handler
catches — here evaluated on the concrete failing input. -/
theorem claim_C1_exception_escapes :
    evaluate_formatting_rules dfC1w [ruleC1w] ctxW
      = .error ("ValueError: invalid literal for int with base 16: zz") := by
  with_unfolding_all decide

/-- C6: the `date_compare` comparison target resolves in order —
`compare_to = "today"` gives the current date computed in the fixed
UTC+8 zone from the UTC instant (the result never depends on the host's
local offset); otherwise a `start_date`/`end_date` context binding is
consulted, ignoring the literal value; otherwise a truthy literal
`value` is parsed; and when nothing resolves, the rule appends one
warning and applies no style. -/
theorem claim_C6_date_target_resolution :
    (∀ (ctx : EvalContext) (cv : Option Value) (b : Bool),
      resolveDateTarget ctx (some "today") cv b = .ok (todayOrdinal ctx) ∧
      todayOrdinal ctx
        = (ctx.nowUtcSeconds + sg_tz_offset_hours * 3600).fdiv 86400 + epochOrdinal ∧
      sg_tz_offset_hours = 8) ∧
    (∀ (now o1 o2 : ℤ) (sd ed : Option Value) (cto : Option String) (cv : Option Value) (b : Bool),
      resolveDateTarget { nowUtcSeconds := now, hostTzOffsetHours := o1, start_date := sd, end_date := ed } cto cv b
        = resolveDateTarget { nowUtcSeconds := now, hostTzOffsetHours := o2, start_date := sd, end_date := ed } cto cv b) ∧
    (∀ (ctx : EvalContext) (cv cv' : Option Value) (b : Bool),
      resolveDateTarget ctx (some "start_date") cv b
        = resolveDateTarget ctx (some "start_date") cv' b) ∧
    (∀ (ctx : EvalContext) (x : Value) (d : ℤ) (cv : Option Value) (b : Bool),
      ctx.start_date = some x → pdToDatetime? x = some d →
      resolveDateTarget ctx (some "start_date") cv b = .ok d) ∧
    (∀ (ctx : EvalContext) (cv : Option Value) (b : Bool), ctx.start_date = none →
      ∃ w, resolveDateTarget ctx (some "start_date") cv b = .error w) ∧
    (∀ (ctx : EvalContext) (v : Value) (d : ℤ) (b : Bool),
      pyTruthy (some v) = true → pdToDatetime? v = some d →
      resolveDateTarget ctx none (some v) b = .ok d) ∧
    (∀ (df : DataFrame) (ctx : EvalContext) (tc op : String) (style : StyleDelta),
      tc ∈ df.columns → tc ≠ "" →
      evaluate_formatting_rules df [dateCompareCellRule tc op none none style] ctx
        = .ok { warnings := ["date_compare missing \x27compare_to\x27 or \x27value\x27"] }) := by
  refine ⟨?_, ?_, ?_, ?_, ?_, ?_, ?_⟩
  · intro ctx cv b
    refine ⟨by simp [resolveDateTarget], rfl, rfl⟩
  · intro now o1 o2 sd ed cto cv b
    simp only [resolveDateTarget, todayOrdinal, globalsGet]
  · intro ctx cv cv' b
    simp [resolveDateTarget]
  · intro ctx x d cv b hsd hd
    simp [resolveDateTarget, globalsGet, hsd, hd]
  · intro ctx cv b hsd
    simp [resolveDateTarget, globalsGet, hsd]
  · intro ctx v d b ht hd
    simp [resolveDateTarget, ht, hd]
  · intro df ctx tc op style htc hne
    rw [evaluate_singleton]
    simp only [dateCompareCellRule]
    rw [applyRule_cell df ctx {} tc _ style htc hne]
    simp [applyCellRule, resolveDateTarget, pyTruthy]

/-- Witness for C6: today under `ctxW` is 2025-10-12; a parseable
`start_date` binding resolves to its ordinal; an unresolvable rule
leaves exactly one warning and no styles. -/
theorem claim_C6_witness :
    resolveDateTarget ctxW (some "today") none true = .ok (todayOrdinal ctxW) ∧
    resolveDateTarget { nowUtcSeconds := 1760227200, hostTzOffsetHours := 5, start_date := some (Value.date 739256), end_date := none } (some "start_date") none false = .ok 739256 ∧
    evaluate_formatting_rules dfXw [dateCompareCellRule "a" ">" none none { bold := some true }] ctxW
      = .ok { warnings := ["date_compare missing \x27compare_to\x27 or \x27value\x27"] } := by
  refine ⟨?_, ?_, ?_⟩
  · exact (claim_C6_date_target_resolution.1 ctxW none true).1
  · exact claim_C6_date_target_resolution.2.2.2.1
      { nowUtcSeconds := 1760227200, hostTzOffsetHours := 5, start_date := some (Value.date 739256), end_date := none }
      (Value.date 739256) 739256 none false rfl rfl
  · exact claim_C6_date_target_resolution.2.2.2.2.2.2 dfXw ctxW "a" ">"
      { bold := some true } (by decide) (by decide)

/-- C7: a row-scope `equals` rule matches exactly the rows whose
whitespace-trimmed cell string equals the stringified value, a
cell-scope `equals` rule matches exactly on the untrimmed cell string,
and a cell that matches only after trimming is styled by the row rule
and by no cell of the cell rule. -/
theorem claim_C7_equals_trim_asymmetry (df : DataFrame) (ctx : EvalContext) (tc : String)
    (v : Value) (style : StyleDelta) (htc : tc ∈ df.columns) (hne : tc ≠ "") :
    (∃ mr, evaluate_formatting_rules df [rowEqualsRule tc v style] ctx = .ok mr ∧
      ∀ i, (i ∈ dictKeys mr.rows ↔ i < df.nrows ∧ (pyStr (df.cell i tc)).trim = pyStr v)) ∧
    (∃ mc, evaluate_formatting_rules df [cellEqualsRule tc v style] ctx = .ok mc ∧
      ∀ r c, ((r, c) ∈ dictKeys mc.cells ↔
        ∃ i, i < df.nrows ∧ pyStr (df.cell i tc) = pyStr v ∧ r = i + 1
          ∧ c = colGetLoc df.columns tc)) ∧
    (∀ i, i < df.nrows → (pyStr (df.cell i tc)).trim = pyStr v →
      pyStr (df.cell i tc) ≠ pyStr v →
      (∃ mr, evaluate_formatting_rules df [rowEqualsRule tc v style] ctx = .ok mr ∧
        i ∈ dictKeys mr.rows) ∧
      (∃ mc, evaluate_formatting_rules df [cellEqualsRule tc v style] ctx = .ok mc ∧
        ∀ c, (i + 1, c) ∉ dictKeys mc.cells)) := by
  refine ⟨rowEquals_characterization df ctx tc v style htc hne,
    cellEquals_characterization df ctx tc v style htc hne, ?_⟩
  intro i hi htrim hne2
  constructor
  · obtain ⟨mr, hmr, hch⟩ := rowEquals_characterization df ctx tc v style htc hne
    exact ⟨mr, hmr, (hch i).mpr ⟨hi, htrim⟩⟩
  · obtain ⟨mc, hmc, hch⟩ := cellEquals_characterization df ctx tc v style htc hne
    refine ⟨mc, hmc, ?_⟩
    intro c hmem
    obtain ⟨j, _, hj2, hj3, _⟩ := (hch (i + 1) c).mp hmem
    have : j = i := by omega
    subst this
    exact hne2 hj2

/-- Witness for C7 on the cell `" x "` against the value `"x"`: the row
rule styles row 0, the cell rule styles nothing. -/
theorem claim_C7_witness :
    (∃ mr, evaluate_formatting_rules dfTrimW [rowEqualsRule "a" (Value.str "x") { bold := some true }] ctxW = .ok mr ∧
      0 ∈ dictKeys mr.rows) ∧
    (∃ mc, evaluate_formatting_rules dfTrimW [cellEqualsRule "a" (Value.str "x") { bold := some true }] ctxW = .ok mc ∧
      ∀ c, (1, c) ∉ dictKeys mc.cells) := by
  have h := (claim_C7_equals_trim_asymmetry dfTrimW ctxW "a" (Value.str "x")
    { bold := some true } (by decide) (by decide)).2.2 0 (by decide)
    (by with_unfolding_all decide) (by with_unfolding_all decide)
  exact h

/-- C3: rules are applied in list order and a later rule that writes the
same cells key overwrites an earlier one — the final entry is exactly
the later rule's style, with no merge and no error. -/
theorem claim_C3_last_write_wins (df : DataFrame) (ctx : EvalContext) (tc : String)
    (v1 v2 : Value) (style1 style2 : StyleDelta) (i : ℕ)
    (htc : tc ∈ df.columns) (hne : tc ≠ "") (hi : i < df.nrows) (hst : style1 ≠ style2)
    (h1 : pyStr (df.cell i tc) = pyStr v1) (h2 : pyStr (df.cell i tc) = pyStr v2) :
    ∃ m, evaluate_formatting_rules df
        [cellEqualsRule tc v1 style1, cellEqualsRule tc v2 style2] ctx = .ok m ∧
      dictGet? m.cells (i + 1, colGetLoc df.columns tc) = some style2 := by
  have hr1 : applyRule df ctx {} (cellEqualsRule tc v1 style1)
      = .ok (applyCellEquals df tc (colGetLoc df.columns tc) (pyStrN (some v1)) style1 {}) := by
    simp only [cellEqualsRule]
    rw [applyRule_cell df ctx {} tc _ style1 htc hne]
    simp only [applyCellRule]
    rw [if_pos (by decide)]
  rw [evaluate_pair df ctx _ _ _ hr1]
  simp only [cellEqualsRule]
  rw [applyRule_cell df ctx _ tc _ style2 htc hne]
  simp only [applyCellRule]
  rw [if_pos (by decide)]
  refine ⟨_, rfl, ?_⟩
  simp only [applyCellEquals]
  have hkey : ((i + 1, colGetLoc df.columns tc) : ℕ × ℕ)
      = (fun j => ((j + 1, colGetLoc df.columns tc) : ℕ × ℕ)) i := rfl
  rw [hkey]
  rw [dictGet?_insFold_written (rowIdxs df) _ _ _ _ i ((mem_rowIdxs df i).mpr hi)
    (by simp [pyStrN, h2]) ?_ (nodup_rowIdxs df)]
  intro b _ _ he
  have : b + 1 = i + 1 := congrArg Prod.fst he
  omega

/-- Witness for C3: two `equals` rules both matching the single cell;
the result holds the second style. -/
theorem claim_C3_witness :
    ∃ m, evaluate_formatting_rules dfXw
        [cellEqualsRule "a" (Value.str "x") { bg_color := some "#111111" },
          cellEqualsRule "a" (Value.str "x") { bg_color := some "#222222" }] ctxW = .ok m ∧
      dictGet? m.cells (0 + 1, colGetLoc dfXw.columns "a")
        = some { bg_color := some "#222222" } :=
  claim_C3_last_write_wins dfXw ctxW "a" (Value.str "x") (Value.str "x")
    { bg_color := some "#111111" } { bg_color := some "#222222" } 0
    (by decide) (by decide) (by decide) (by decide) (by decide) (by decide)

/-- C8: the silent-vs-warned skip policy — a missing target column is
skipped with no warning, unparsable numeric cells are skipped with no
warning, and a `date_compare_column` rule with a missing compare column
is skipped with exactly one warning. -/
theorem claim_C8_skip_policy :
    (∀ (df : DataFrame) (ctx : EvalContext) (rule : Rule),
      (∀ tc, rule.target_column = some tc → tc = "" ∨ tc ∉ df.columns) →
      evaluate_formatting_rules df [rule] ctx = .ok {}) ∧
    (∀ (df : DataFrame) (ctx : EvalContext) (tc op : String) (v : Value) (style : StyleDelta),
      tc ∈ df.columns → tc ≠ "" →
      ∃ m, evaluate_formatting_rules df [cellNumericRule tc op v style] ctx = .ok m ∧
        m.warnings = [] ∧
        ∀ i, i < df.nrows → pyFloat? (df.cell i tc) = none →
          ∀ c, (i + 1, c) ∉ dictKeys m.cells) ∧
    (∀ (df : DataFrame) (ctx : EvalContext) (tc cc op : String) (style : StyleDelta),
      tc ∈ df.columns → tc ≠ "" → cc ≠ "" → cc ∉ df.columns →
      evaluate_formatting_rules df [dateCompareColumnRule tc cc op style] ctx
        = .ok { warnings := ["Compare column \x27" ++ cc ++ "\x27 not found"] }) := by
  refine ⟨?_, ?_, ?_⟩
  · intro df ctx rule h
    rw [evaluate_singleton]
    exact applyRule_missing_target df ctx {} rule h
  · intro df ctx tc op v style htc hne
    rw [evaluate_singleton]
    simp only [cellNumericRule]
    rw [applyRule_cell df ctx {} tc _ style htc hne]
    simp only [applyCellRule]
    rw [if_neg (by decide), if_neg (by decide), if_pos (by decide)]
    refine ⟨_, rfl, rfl, ?_⟩
    intro i hi hnone c hmem
    simp only [applyCellNumeric] at hmem
    rw [mem_dictKeys_insFold] at hmem
    rcases hmem with ⟨a, ha, hpa, hk⟩ | hmem
    · have : a = i := by
        have := congrArg Prod.fst hk
        simp at this
        omega
      subst this
      simp [numericRowMatches, hnone] at hpa
    · simp [dictKeys] at hmem
  · intro df ctx tc cc op style htc hne hcc hccm
    rw [evaluate_singleton]
    simp only [dateCompareColumnRule]
    rw [applyRule_cell df ctx {} tc _ style htc hne]
    simp only [applyCellRule]
    rw [if_neg (by decide), if_neg (by decide), if_neg (by decide), if_neg (by decide),
      if_pos (by decide)]
    rw [if_pos (Or.inr hccm)]
    rfl

/-- Witness for C8: a rule on a missing column is a silent no-op; a
numeric rule on an unparsable cell writes nothing and warns nothing; a
missing compare column warns exactly once. -/
theorem claim_C8_witness :
    evaluate_formatting_rules dfXw [cellNumericRule "zzz" ">" (Value.num 0) { bold := some true }] ctxW = .ok {} ∧
    (∃ m, evaluate_formatting_rules dfXw [cellNumericRule "a" ">" (Value.num 0) { bold := some true }] ctxW = .ok m ∧
      m.warnings = [] ∧
      ∀ i, i < dfXw.nrows → pyFloat? (dfXw.cell i "a") = none →
        ∀ c, (i + 1, c) ∉ dictKeys m.cells) ∧
    evaluate_formatting_rules dfXw [dateCompareColumnRule "a" "b" ">" { bold := some true }] ctxW
      = .ok { warnings := ["Compare column \x27" ++ "b" ++ "\x27 not found"] } := by
  refine ⟨?_, ?_, ?_⟩
  · exact claim_C8_skip_policy.1 dfXw ctxW _ (by intro tc h; injection h with h2; subst h2; exact Or.inr (by decide))
  · exact claim_C8_skip_policy.2.1 dfXw ctxW "a" ">" (Value.num 0) { bold := some true } (by decide) (by decide)
  · exact claim_C8_skip_policy.2.2 dfXw ctxW "a" "b" ">" { bold := some true }
      (by decide) (by decide) (by decide) (by decide)

/-! Lemmas for the categorical color scale. -/

lemma dedupFold_nodup (f : ℕ → String) (q : ℕ → Bool) (l : List ℕ) (acc : List String)
    (hacc : acc.Nodup) :
    (l.foldl (fun acc i => if q i then acc
      else if f i ∈ acc then acc else acc ++ [f i]) acc).Nodup := by
  induction l generalizing acc with
  | nil => exact hacc
  | cons a rest ih =>
      apply ih
      by_cases hq : q a = true
      · simpa [hq] using hacc
      · by_cases hc : f a ∈ acc
        · simpa [hq, hc] using hacc
        · simp only [if_neg hq, if_neg hc]
          simp [List.nodup_append, hacc, hc]

lemma dedupFold_eq_nil_iff (f : ℕ → String) (q : ℕ → Bool) (l : List ℕ) (acc : List String) :
    (l.foldl (fun acc i => if q i then acc
      else if f i ∈ acc then acc else acc ++ [f i]) acc) = []
      ↔ acc = [] ∧ ∀ i ∈ l, q i = true := by
  induction l generalizing acc with
  | nil => simp
  | cons a rest ih =>
      rw [List.foldl_cons, ih]
      by_cases hq : q a = true
      · simp [hq]
      · by_cases hc : f a ∈ acc
        · simp only [if_neg hq, if_pos hc]
          constructor
          · rintro ⟨rfl, hrest⟩
            exact absurd hc (by simp)
          · rintro ⟨rfl, hall⟩
            exact absurd (hall a (by simp)) hq
        · simp only [if_neg hq, if_neg hc]
          constructor
          · rintro ⟨hnil, hrest⟩
            exact absurd hnil (by simp)
          · rintro ⟨rfl, hall⟩
            exact absurd (hall a (by simp)) hq

lemma catUnmapped_nodup (df : DataFrame) (tc : String) (cmap : List (String × String)) :
    (catUnmapped df tc cmap).Nodup := by
  unfold catUnmapped
  exact dedupFold_nodup (fun i => pyStr (df.cell i tc))
    (fun i => (dictGet? cmap (pyStr (df.cell i tc))).isSome) (rowIdxs df) [] (by simp)

lemma catUnmapped_eq_nil_iff (df : DataFrame) (tc : String) (cmap : List (String × String)) :
    catUnmapped df tc cmap = []
      ↔ ∀ i ∈ rowIdxs df, (dictGet? cmap (pyStr (df.cell i tc))).isSome = true := by
  unfold catUnmapped
  rw [dedupFold_eq_nil_iff (fun i => pyStr (df.cell i tc))
    (fun i => (dictGet? cmap (pyStr (df.cell i tc))).isSome) (rowIdxs df) []]
  simp

lemma applyCatScale_cells (df : DataFrame) (tc : String) (colIdx : ℕ)
    (cmap : List (String × String)) (m : StyleMap) :
    (applyCatScale df tc colIdx cmap m).cells
      = insFold (rowIdxs df) (fun i => (dictGet? cmap (pyStr (df.cell i tc))).isSome)
        (fun i => (i + 1, colIdx))
        (fun i => { bg_color := dictGet? cmap (pyStr (df.cell i tc)) }) m.cells := by
  simp only [applyCatScale]
  by_cases hu : (catUnmapped df tc cmap).isEmpty <;> simp [hu]

lemma applyCatScale_rows (df : DataFrame) (tc : String) (colIdx : ℕ)
    (cmap : List (String × String)) (m : StyleMap) :
    (applyCatScale df tc colIdx cmap m).rows = m.rows := by
  simp only [applyCatScale]
  by_cases hu : (catUnmapped df tc cmap).isEmpty <;> simp [hu]

lemma applyCatScale_warnings (df : DataFrame) (tc : String) (colIdx : ℕ)
    (cmap : List (String × String)) (m : StyleMap) :
    (applyCatScale df tc colIdx cmap m).warnings
      = m.warnings ++ (if (catUnmapped df tc cmap).isEmpty then []
          else [catWarning tc (catUnmapped df tc cmap)]) := by
  simp only [applyCatScale]
  by_cases hu : (catUnmapped df tc cmap).isEmpty <;> simp [hu]

/-- C9: a categorical color scale with a non-empty map styles exactly
the rows whose stringified cell is a key of the map, at the shifted key
`(row+1, column)` with the mapped background color; unmapped rows get
no cells entry; a non-empty distinct unmapped set yields exactly one
aggregate warning listing at most three examples with an ellipsis
exactly when there are more than three; and an empty map skips the rule
with one warning. -/
theorem claim_C9_categorical (df : DataFrame) (ctx : EvalContext) (tc : String)
    (cmap : List (String × String)) (htc : tc ∈ df.columns) (hne : tc ≠ "") :
    (cmap = [] → evaluate_formatting_rules df [catScaleRule tc cmap] ctx
        = .ok { warnings := ["color_scale categorical missing \x27color_map\x27"] }) ∧
    (cmap ≠ [] → ∃ m, evaluate_formatting_rules df [catScaleRule tc cmap] ctx = .ok m ∧
      m.rows = [] ∧
      (∀ i bg, i < df.nrows → dictGet? cmap (pyStr (df.cell i tc)) = some bg →
        dictGet? m.cells (i + 1, colGetLoc df.columns tc)
          = some { bg_color := some bg, bold := none }) ∧
      (∀ i, i < df.nrows → dictGet? cmap (pyStr (df.cell i tc)) = none →
        ∀ c, (i + 1, c) ∉ dictKeys m.cells) ∧
      (catUnmapped df tc cmap).Nodup ∧
      (catUnmapped df tc cmap = [] ↔
        ∀ i, i < df.nrows → (dictGet? cmap (pyStr (df.cell i tc))).isSome = true) ∧
      m.warnings = (if catUnmapped df tc cmap = [] then []
        else ["\x27" ++ tc ++ "\x27 categorical color scale: "
          ++ toString (catUnmapped df tc cmap).length ++ " unmapped values ("
          ++ (", ").intercalate ((catUnmapped df tc cmap).take 3)
          ++ (if 3 < (catUnmapped df tc cmap).length then "..." else "") ++ ")"])) := by
  constructor
  · intro hmt
    subst hmt
    rw [evaluate_singleton]
    simp only [catScaleRule]
    rw [applyRule_cell df ctx {} tc _ {} htc hne]
    simp only [applyCellRule]
    rw [if_neg (by decide), if_neg (by decide), if_neg (by decide), if_neg (by decide),
      if_neg (by decide), if_pos (by decide), if_pos (by decide), if_pos (by decide)]
    rfl
  · intro hmt
    rw [evaluate_singleton]
    simp only [catScaleRule]
    rw [applyRule_cell df ctx {} tc _ {} htc hne]
    simp only [applyCellRule]
    rw [if_neg (by decide), if_neg (by decide), if_neg (by decide), if_neg (by decide),
      if_neg (by decide), if_pos (by decide), if_pos (by decide)]
    rw [if_neg (by simpa [List.isEmpty_iff] using hmt)]
    refine ⟨_, rfl, ?_, ?_, ?_, catUnmapped_nodup df tc cmap, ?_, ?_⟩
    · rw [applyCatScale_rows]
    · intro i bg hi hbg
      rw [applyCatScale_cells]
      have hkey : ((i + 1, colGetLoc df.columns tc) : ℕ × ℕ)
          = (fun j => ((j + 1, colGetLoc df.columns tc) : ℕ × ℕ)) i := rfl
      rw [hkey]
      rw [dictGet?_insFold_written (rowIdxs df) _ _ _ _ i ((mem_rowIdxs df i).mpr hi)
        (by simp [hbg]) ?_ (nodup_rowIdxs df)]
      · simp [hbg]
      · intro b _ _ he
        have : b + 1 = i + 1 := congrArg Prod.fst he
        omega
    · intro i hi hnone c hmem
      rw [applyCatScale_cells] at hmem
      rw [mem_dictKeys_insFold] at hmem
      rcases hmem with ⟨a, _, hpa, hk⟩ | hmem
      · have : a = i := by
          have := congrArg Prod.fst hk
          simp at this
          omega
        subst this
        simp [hnone] at hpa
      · simp [dictKeys] at hmem
    · rw [catUnmapped_eq_nil_iff]
      simp [mem_rowIdxs]
    · rw [applyCatScale_warnings]
      by_cases hu : catUnmapped df tc cmap = [] <;>
        simp [hu, List.isEmpty_iff, catWarning]

/-- Witness for C9: an empty color map skips with one warning, and the
spec §8 example styles the `Active` row and reports `Unknown` once. -/
theorem claim_C9_witness :
    (evaluate_formatting_rules dfCatW [catScaleRule "st" []] ctxW
      = .ok { warnings := ["color_scale categorical missing \x27color_map\x27"] }) ∧
    evaluate_formatting_rules dfCatW [catScaleRule "st" [("Active", "#111111")]] ctxW
      = .ok mapCatW := by
  constructor
  · exact (claim_C9_categorical dfCatW ctxW "st" [] (by decide) (by decide)).1 rfl
  · with_unfolding_all decide

/-! Lemmas for evaluation over a zero-row dataset. -/

lemma foldlM_except_cons {σ ρ : Type} (f : σ → ρ → Except String σ) (s : σ) (a : ρ)
    (l : List ρ) :
    List.foldlM f s (a :: l) = f s a >>= fun s2 => List.foldlM f s2 l := rfl

lemma applyRowRule_empty (cols : List String) (ctx : EvalContext) (tc : String)
    (cond : Condition) (style : StyleDelta) (m : StyleMap) :
    ∃ w2, applyRowRule { columns := cols, rowsData := [] } ctx tc cond style m
      = { rows := m.rows, cells := m.cells, warnings := m.warnings ++ w2 } := by
  simp only [applyRowRule]
  by_cases h1 : cond.type = some "contains"
  · rw [if_pos h1]
    exact ⟨[], by simp [applyRowContains, rowIdxs, DataFrame.nrows, insFold]⟩
  · rw [if_neg h1]
    by_cases h2 : cond.type = some "equals"
    · rw [if_pos h2]
      exact ⟨[], by simp [applyRowEquals, rowIdxs, DataFrame.nrows, insFold]⟩
    · rw [if_neg h2]
      by_cases h3 : cond.type = some "date_compare"
      · rw [if_pos h3]
        cases hres : resolveDateTarget ctx cond.compare_to cond.value true with
        | error w => exact ⟨[w], rfl⟩
        | ok target =>
            refine ⟨[], ?_⟩
            simp [applyRowDateCompare, dateParseFailures, rowIdxs, DataFrame.nrows, insFold]
      · rw [if_neg h3]
        exact ⟨[], by simp⟩

lemma applyCellRule_empty (cols : List String) (ctx : EvalContext) (tc : String)
    (cond : Condition) (style : StyleDelta) (m : StyleMap) :
    ∃ w2, applyCellRule { columns := cols, rowsData := [] } ctx tc cond style m
      = .ok { rows := m.rows, cells := m.cells, warnings := m.warnings ++ w2 } := by
  simp only [applyCellRule]
  by_cases h1 : cond.type = some "equals"
  · rw [if_pos h1]
    exact ⟨[], by simp [applyCellEquals, rowIdxs, DataFrame.nrows, insFold]⟩
  · rw [if_neg h1]
    by_cases h2 : cond.type = some "contains"
    · rw [if_pos h2]
      exact ⟨[], by simp [applyCellContains, rowIdxs, DataFrame.nrows, insFold]⟩
    · rw [if_neg h2]
      by_cases h3 : cond.type = some "numeric"
      · rw [if_pos h3]
        exact ⟨[], by simp [applyCellNumeric, rowIdxs, DataFrame.nrows, insFold]⟩
      · rw [if_neg h3]
        by_cases h4 : cond.type = some "date_compare"
        · rw [if_pos h4]
          cases hres : resolveDateTarget ctx cond.compare_to cond.value false with
          | error w => exact ⟨[w], rfl⟩
          | ok target =>
              refine ⟨[], ?_⟩
              simp [applyCellDateCompare, dateParseFailures, rowIdxs, DataFrame.nrows, insFold]
        · rw [if_neg h4]
          by_cases h5 : cond.type = some "date_compare_column"
          · rw [if_pos h5]
            split
            · exact ⟨_, rfl⟩
            · split
              · exact ⟨_, rfl⟩
              · refine ⟨[], ?_⟩
                simp [applyCellDateCompareColumn, dateColumnFailures, rowIdxs,
                  DataFrame.nrows, insFold]
          · rw [if_neg h5]
            by_cases h6 : cond.type = some "color_scale"
            · rw [if_pos h6]
              by_cases hst1 : cond.scale_type.getD "numeric" = "categorical"
              · rw [if_pos hst1]
                by_cases hcm : cond.color_map.isEmpty
                · rw [if_pos hcm]
                  exact ⟨["color_scale categorical missing \x27color_map\x27"], rfl⟩
                · rw [if_neg hcm]
                  refine ⟨[], ?_⟩
                  simp [applyCatScale, catUnmapped, rowIdxs, DataFrame.nrows, insFold]
              · rw [if_neg hst1]
                by_cases hst2 : cond.scale_type.getD "numeric" = "numeric"
                · rw [if_pos hst2]
                  simp only [applyNumericScale]
                  by_cases hc3 : (cond.colors.getD ["#00FF00", "#FFFF00", "#FF0000"]).length ≠ 3
                  · rw [if_pos hc3]
                    exact ⟨["color_scale numeric requires exactly 3 colors"], rfl⟩
                  · rw [if_neg hc3]
                    refine ⟨["\x27" ++ tc ++ "\x27 has no valid numeric values"], ?_⟩
                    rw [if_pos (by simp [numericValues, rowIdxs, DataFrame.nrows])]
                · rw [if_neg hst2]
                  by_cases hst3 : cond.scale_type.getD "numeric" = "date"
                  · rw [if_pos hst3]
                    simp only [applyDateScale]
                    by_cases hc3 : (cond.colors.getD ["#00FF00", "#FFFF00", "#FF0000"]).length ≠ 3
                    · rw [if_pos hc3]
                      exact ⟨["color_scale date requires exactly 3 colors"], rfl⟩
                    · rw [if_neg hc3]
                      refine ⟨["\x27" ++ tc ++ "\x27 has no valid dates"], ?_⟩
                      rw [if_pos (by simp [dateValues, rowIdxs, DataFrame.nrows])]
                  · rw [if_neg hst3]
                    exact ⟨[], by simp⟩
            · rw [if_neg h6]
              exact ⟨[], by simp⟩

lemma applyRule_empty (cols : List String) (ctx : EvalContext) (m : StyleMap) (rule : Rule) :
    ∃ w2, applyRule { columns := cols, rowsData := [] } ctx m rule
      = .ok { rows := m.rows, cells := m.cells, warnings := m.warnings ++ w2 } := by
  simp only [applyRule]
  by_cases hs1 : rule.scope.getD "cell" = "row"
  · rw [if_pos hs1]
    split
    · exact ⟨[], by simp⟩
    · split
      · exact ⟨[], by simp⟩
      · rename_i tc hopt hcols
        obtain ⟨w2, h⟩ := applyRowRule_empty cols ctx tc rule.condition rule.style m
        exact ⟨w2, by rw [h]⟩
  · rw [if_neg hs1]
    by_cases hs2 : rule.scope.getD "cell" = "cell"
    · rw [if_pos hs2]
      split
      · exact ⟨[], by simp⟩
      · split
        · exact ⟨[], by simp⟩
        · rename_i tc hopt hcols
          exact applyCellRule_empty cols ctx tc rule.condition rule.style m
    · rw [if_neg hs2]
      exact ⟨[], by simp⟩

lemma foldlM_empty_df (cols : List String) (ctx : EvalContext) : ∀ (rules : List Rule) (m : StyleMap),
    ∃ w2, List.foldlM (applyRule { columns := cols, rowsData := [] } ctx) m rules
      = .ok { rows := m.rows, cells := m.cells, warnings := m.warnings ++ w2 } := by
  intro rules
  induction rules with
  | nil =>
      intro m
      refine ⟨[], ?_⟩
      simp only [List.foldlM, List.append_nil]
      rfl
  | cons r rest ih =>
      intro m
      obtain ⟨w1, h1⟩ := applyRule_empty cols ctx m r
      obtain ⟨w2, h2⟩ := ih { rows := m.rows, cells := m.cells, warnings := m.warnings ++ w1 }
      refine ⟨w1 ++ w2, ?_⟩
      rw [foldlM_except_cons, h1, except_bind_ok, h2]
      simp

/-- C4 (amended): a zero-row dataset always evaluates without error to
a style map with empty `rows` and `cells`; the warning list, however,
need not be empty — row-independent checks (such as a color scale
finding no valid values) still append warnings. -/
theorem claim_C4_empty_dataset (cols : List String) (rules : List Rule) (ctx : EvalContext) :
    ∃ w, evaluate_formatting_rules { columns := cols, rowsData := [] } rules ctx
      = .ok { rows := [], cells := [], warnings := w } := by
  unfold evaluate_formatting_rules
  by_cases hr : rules.isEmpty
  · exact ⟨[], by rw [if_pos hr]⟩
  · rw [if_neg hr]
    obtain ⟨w, h⟩ := foldlM_empty_df cols ctx rules {}
    exact ⟨w, by simpa using h⟩

/-- C4 counterexample: on a zero-row dataset with one declared column, a
numeric color-scale rule appends a warning, so the claimed
`warnings:[]` for every rule list is false. -/
theorem claim_C4_counterexample :
    evaluate_formatting_rules dfEmptyW [ruleCSnum] ctxW
      = .ok { warnings := ["\x27a\x27 has no valid numeric values"] } ∧
    ({ warnings := ["\x27a\x27 has no valid numeric values"] } : StyleMap) ≠ {} := by
  with_unfolding_all decide

/-! Key-shift invariant: every key the evaluator ever writes. -/

lemma insFold_cells_keysOk {α : Type} (df : DataFrame) (idx : List α) (p : α → Bool)
    (r : α → ℕ) (cI : ℕ) (st : α → StyleDelta) (m0 : List ((ℕ × ℕ) × StyleDelta))
    (h0 : ∀ x ∈ m0, 1 ≤ x.1.1 ∧ x.1.1 ≤ df.nrows)
    (hr : ∀ a ∈ idx, r a < df.nrows) :
    ∀ x ∈ insFold idx p (fun a => (r a + 1, cI)) st m0, 1 ≤ x.1.1 ∧ x.1.1 ≤ df.nrows := by
  intro x hx
  rcases mem_insFold_sub idx p _ st m0 x hx with h | ⟨a, ha, _, rfl⟩
  · exact h0 x h
  · have := hr a ha
    simp only
    omega

lemma insFold_rows_keysOk {α : Type} (df : DataFrame) (idx : List α) (p : α → Bool)
    (r : α → ℕ) (st : α → StyleDelta) (m0 : List (ℕ × StyleDelta))
    (h0 : ∀ x ∈ m0, x.1 < df.nrows) (hr : ∀ a ∈ idx, r a < df.nrows) :
    ∀ x ∈ insFold idx p r st m0, x.1 < df.nrows := by
  intro x hx
  rcases mem_insFold_sub idx p _ st m0 x hx with h | ⟨a, ha, _, rfl⟩
  · exact h0 x h
  · exact hr a ha

lemma numericValues_fst_lt (df : DataFrame) (tc : String) :
    ∀ y ∈ numericValues df tc, y.1 < df.nrows := by
  intro y hy
  simp only [numericValues, List.mem_filterMap] at hy
  obtain ⟨i, hi, hmap⟩ := hy
  cases hv : pyFloat? (df.cell i tc) with
  | none => rw [hv] at hmap; exact absurd hmap (by simp)
  | some v =>
      rw [hv] at hmap
      have hmap2 : some ((i, v) : ℕ × ℚ) = some y := hmap
      injection hmap2 with hmap2
      rw [← hmap2]
      exact (mem_rowIdxs df i).mp hi

lemma dateValues_fst_lt (df : DataFrame) (tc : String) :
    ∀ y ∈ dateValues df tc, y.1 < df.nrows := by
  intro y hy
  simp only [dateValues, List.mem_filterMap] at hy
  obtain ⟨i, hi, hmap⟩ := hy
  cases hv : pdToDatetime? (df.cell i tc) with
  | none => rw [hv] at hmap; exact absurd hmap (by simp)
  | some v =>
      rw [hv] at hmap
      have hmap2 : some ((i, v) : ℕ × ℤ) = some y := hmap
      injection hmap2 with hmap2
      rw [← hmap2]
      exact (mem_rowIdxs df i).mp hi

lemma gradientColors_fst (vals : List (ℕ × ℚ)) (mn md mx : ℚ) (cs : List String)
    (l : List (ℕ × String)) (h : gradientColors vals mn md mx cs = .ok l) :
    l.map Prod.fst = vals.map Prod.fst := by
  induction vals generalizing l with
  | nil =>
      have h2 : (Except.ok [] : Except String (List (ℕ × String))) = .ok l := h
      injection h2 with h2
      rw [← h2]
      rfl
  | cons p rest ih =>
      simp only [gradientColors] at h
      cases hg : get_gradient_color p.2 mn md mx cs with
      | error e => rw [hg, except_bind_err] at h; exact absurd h (by simp)
      | ok bg =>
          rw [hg, except_bind_ok] at h
          cases ht : gradientColors rest mn md mx cs with
          | error e => rw [ht, except_bind_err] at h; exact absurd h (by simp)
          | ok tail =>
              rw [ht, except_bind_ok] at h
              have h2 : (Except.ok ((p.1, bg) :: tail) : Except String (List (ℕ × String))) = .ok l := h
              injection h2 with h2
              rw [← h2]
              simp [ih tail ht]

lemma keysOk_warn (df : DataFrame) (m : StyleMap) (w : List String) (h : styleKeysOk df m) :
    styleKeysOk df { m with warnings := w } :=
  ⟨h.1, h.2⟩

lemma applyGradientCells_keysOk (df : DataFrame) (cI : ℕ) (vals : List (ℕ × ℚ))
    (mn md mx : ℚ) (cs : List String) (m m2 : StyleMap)
    (h : applyGradientCells cI vals mn md mx cs m = .ok m2)
    (hl : ∀ y ∈ vals, y.1 < df.nrows) (hm : styleKeysOk df m) : styleKeysOk df m2 := by
  unfold applyGradientCells at h
  cases hg : gradientColors vals mn md mx cs with
  | error e => rw [hg, except_bind_err] at h; exact absurd h (by simp)
  | ok colored =>
      rw [hg, except_bind_ok] at h
      have h2 : Except.ok { m with cells := insFold colored (fun _ => true) (fun p => (p.1 + 1, cI)) (fun p => { bg_color := some p.2 }) m.cells } = .ok m2 := h
      injection h2 with h2
      rw [← h2]
      refine ⟨?_, hm.2⟩
      refine insFold_cells_keysOk df colored _ Prod.fst cI _ m.cells hm.1 ?_
      intro a ha
      have hfst := gradientColors_fst vals mn md mx cs colored hg
      have : a.1 ∈ vals.map Prod.fst := by
        rw [← hfst]
        exact List.mem_map_of_mem Prod.fst ha
      obtain ⟨y, hy, he⟩ := List.mem_map.mp this
      exact he ▸ hl y hy

lemma applyCellDateCompareColumn_keysOk (df : DataFrame) (tc cc op : String)
    (style : StyleDelta) (m : StyleMap) (h : styleKeysOk df m) :
    styleKeysOk df (applyCellDateCompareColumn df tc cc op style m) := by
  have hid : ∀ a ∈ rowIdxs df, a < df.nrows := fun a ha => (mem_rowIdxs df a).mp ha
  have hc := insFold_cells_keysOk df (rowIdxs df) (dateColumnMatches df tc cc op)
    (fun i => i) (colGetLoc df.columns tc) (fun _ => style) m.cells h.1 hid
  simp only [applyCellDateCompareColumn]
  by_cases hf : dateColumnFailures df tc cc ≠ 0
  · rw [if_pos hf]
    exact ⟨hc, h.2⟩
  · rw [if_neg hf]
    exact ⟨hc, h.2⟩

lemma applyRowRule_keysOk (df : DataFrame) (ctx : EvalContext) (tc : String)
    (cond : Condition) (style : StyleDelta) (m : StyleMap) (h : styleKeysOk df m) :
    styleKeysOk df (applyRowRule df ctx tc cond style m) := by
  have hid : ∀ a ∈ rowIdxs df, a < df.nrows := fun a ha => (mem_rowIdxs df a).mp ha
  simp only [applyRowRule]
  by_cases h1 : cond.type = some "contains"
  · rw [if_pos h1]
    exact ⟨h.1, insFold_rows_keysOk df (rowIdxs df) _ (fun i => i) _ m.rows h.2 hid⟩
  · rw [if_neg h1]
    by_cases h2 : cond.type = some "equals"
    · rw [if_pos h2]
      exact ⟨h.1, insFold_rows_keysOk df (rowIdxs df) _ (fun i => i) _ m.rows h.2 hid⟩
    · rw [if_neg h2]
      by_cases h3 : cond.type = some "date_compare"
      · rw [if_pos h3]
        cases resolveDateTarget ctx cond.compare_to cond.value true with
        | error w => exact ⟨h.1, h.2⟩
        | ok target =>
            have hrows := insFold_rows_keysOk df (rowIdxs df)
              (dateCellMatches df tc (cond.operator.getD ">") target) (fun i => i)
              (fun _ => style) m.rows h.2 hid
            simp only [applyRowDateCompare]
            by_cases hf : dateParseFailures df tc ≠ 0
            · rw [if_pos hf]
              exact ⟨h.1, hrows⟩
            · rw [if_neg hf]
              exact ⟨h.1, hrows⟩
      · rw [if_neg h3]
        exact h

lemma applyCellRule_keysOk (df : DataFrame) (ctx : EvalContext) (tc : String)
    (cond : Condition) (style : StyleDelta) (m m2 : StyleMap)
    (hok : applyCellRule df ctx tc cond style m = .ok m2) (h : styleKeysOk df m) :
    styleKeysOk df m2 := by
  have hid : ∀ a ∈ rowIdxs df, a < df.nrows := fun a ha => (mem_rowIdxs df a).mp ha
  have hcells := fun (p : ℕ → Bool) (cI : ℕ) (st : ℕ → StyleDelta) =>
    insFold_cells_keysOk df (rowIdxs df) p (fun i => i) cI st m.cells h.1 hid
  simp only [applyCellRule] at hok
  by_cases h1 : cond.type = some "equals"
  · rw [if_pos h1] at hok
    injection hok with hok
    rw [← hok]
    exact ⟨hcells _ _ _, h.2⟩
  · rw [if_neg h1] at hok
    by_cases h2 : cond.type = some "contains"
    · rw [if_pos h2] at hok
      injection hok with hok
      rw [← hok]
      exact ⟨hcells _ _ _, h.2⟩
    · rw [if_neg h2] at hok
      by_cases h3 : cond.type = some "numeric"
      · rw [if_pos h3] at hok
        injection hok with hok
        rw [← hok]
        exact ⟨hcells _ _ _, h.2⟩
      · rw [if_neg h3] at hok
        by_cases h4 : cond.type = some "date_compare"
        · rw [if_pos h4] at hok
          revert hok
          cases resolveDateTarget ctx cond.compare_to cond.value false with
          | error w =>
              intro hok
              injection hok with hok
              rw [← hok]
              exact ⟨h.1, h.2⟩
          | ok target =>
              intro hok
              injection hok with hok
              rw [← hok]
              simp only [applyCellDateCompare]
              by_cases hf : dateParseFailures df tc ≠ 0
              · rw [if_pos hf]
                exact ⟨hcells _ _ _, h.2⟩
              · rw [if_neg hf]
                exact ⟨hcells _ _ _, h.2⟩
        · rw [if_neg h4] at hok
          by_cases h5 : cond.type = some "date_compare_column"
          · rw [if_pos h5] at hok
            revert hok
            split
            · intro hok
              injection hok with hok
              rw [← hok]
              exact ⟨h.1, h.2⟩
            · split
              · intro hok
                injection hok with hok
                rw [← hok]
                exact ⟨h.1, h.2⟩
              · intro hok
                injection hok with hok
                rw [← hok]
                exact applyCellDateCompareColumn_keysOk df tc _ _ style m h
          · rw [if_neg h5] at hok
            by_cases h6 : cond.type = some "color_scale"
            · rw [if_pos h6] at hok
              revert hok
              by_cases hst1 : cond.scale_type.getD "numeric" = "categorical"
              · rw [if_pos hst1]
                by_cases hcm : cond.color_map.isEmpty
                · rw [if_pos hcm]
                  intro hok
                  injection hok with hok
                  rw [← hok]
                  exact ⟨h.1, h.2⟩
                · rw [if_neg hcm]
                  intro hok
                  injection hok with hok
                  rw [← hok]
                  constructor
                  · rw [applyCatScale_cells]
                    exact hcells _ _ _
                  · rw [applyCatScale_rows]
                    exact h.2
              · rw [if_neg hst1]
                by_cases hst2 : cond.scale_type.getD "numeric" = "numeric"
                · rw [if_pos hst2]
                  simp only [applyNumericScale]
                  by_cases hc3 : (cond.colors.getD ["#00FF00", "#FFFF00", "#FF0000"]).length ≠ 3
                  · rw [if_pos hc3]
                    intro hok
                    injection hok with hok
                    rw [← hok]
                    exact ⟨h.1, h.2⟩
                  · rw [if_neg hc3]
                    by_cases hnv : (numericValues df tc).isEmpty
                    · rw [if_pos hnv]
                      intro hok
                      injection hok with hok
                      rw [← hok]
                      exact ⟨h.1, h.2⟩
                    · rw [if_neg hnv]
                      by_cases hmode : cond.mode.getD "auto" = "auto"
                      · rw [if_pos hmode]
                        intro hok
                        exact applyGradientCells_keysOk df _ _ _ _ _ _ m m2 hok
                          (numericValues_fst_lt df tc) h
                      · rw [if_neg hmode]
                        split
                        · split
                          · intro hok
                            exact applyGradientCells_keysOk df _ _ _ _ _ _ m m2 hok
                              (numericValues_fst_lt df tc) h
                          · intro hok
                            injection hok with hok
                            rw [← hok]
                            exact ⟨h.1, h.2⟩
                        · intro hok
                          injection hok with hok
                          rw [← hok]
                          exact ⟨h.1, h.2⟩
                · rw [if_neg hst2]
                  by_cases hst3 : cond.scale_type.getD "numeric" = "date"
                  · rw [if_pos hst3]
                    simp only [applyDateScale]
                    by_cases hc3 : (cond.colors.getD ["#00FF00", "#FFFF00", "#FF0000"]).length ≠ 3
                    · rw [if_pos hc3]
                      intro hok
                      injection hok with hok
                      rw [← hok]
                      exact ⟨h.1, h.2⟩
                    · rw [if_neg hc3]
                      by_cases hdv : (dateValues df tc).isEmpty
                      · rw [if_pos hdv]
                        intro hok
                        injection hok with hok
                        rw [← hok]
                        exact ⟨h.1, h.2⟩
                      · rw [if_neg hdv]
                        have hdvq : ∀ y ∈ (dateValues df tc).map
                            (fun p => ((p.1 : ℕ), (p.2 : ℚ))), y.1 < df.nrows := by
                          intro y hy
                          obtain ⟨z, hz, he⟩ := List.mem_map.mp hy
                          have := dateValues_fst_lt df tc z hz
                          rw [← he]
                          exact this
                        have hwarn : styleKeysOk df (if dateParseFailures df tc ≠ 0 then
                            { m with warnings := m.warnings ++ ["\x27" ++ tc
                              ++ "\x27 date color scale: " ++ toString (dateParseFailures df tc)
                              ++ " invalid dates"] } else m) := by
                          by_cases hf : dateParseFailures df tc ≠ 0
                          · rw [if_pos hf]
                            exact ⟨h.1, h.2⟩
                          · rw [if_neg hf]
                            exact h
                        by_cases hmode : cond.mode.getD "auto" = "auto"
                        · rw [if_pos hmode]
                          intro hok
                          exact applyGradientCells_keysOk df _ _ _ _ _ _ _ m2 hok hdvq hwarn
                        · rw [if_neg hmode]
                          split
                          · split
                            · intro hok
                              exact applyGradientCells_keysOk df _ _ _ _ _ _ _ m2 hok hdvq hwarn
                            · intro hok
                              injection hok with hok
                              rw [← hok]
                              exact ⟨hwarn.1, hwarn.2⟩
                          · intro hok
                            injection hok with hok
                            rw [← hok]
                            exact ⟨hwarn.1, hwarn.2⟩
                  · rw [if_neg hst3]
                    intro hok
                    injection hok with hok
                    rw [← hok]
                    exact h
            · rw [if_neg h6] at hok
              injection hok with hok
              rw [← hok]
              exact h

lemma applyRule_keysOk (df : DataFrame) (ctx : EvalContext) (m : StyleMap) (rule : Rule)
    (m2 : StyleMap) (hok : applyRule df ctx m rule = .ok m2) (h : styleKeysOk df m) :
    styleKeysOk df m2 := by
  simp only [applyRule] at hok
  by_cases hs1 : rule.scope.getD "cell" = "row"
  · rw [if_pos hs1] at hok
    revert hok
    split
    · intro hok
      injection hok with hok
      rw [← hok]
      exact h
    · split
      · intro hok
        injection hok with hok
        rw [← hok]
        exact h
      · intro hok
        injection hok with hok
        rw [← hok]
        exact applyRowRule_keysOk df ctx _ rule.condition rule.style m h
  · rw [if_neg hs1] at hok
    by_cases hs2 : rule.scope.getD "cell" = "cell"
    · rw [if_pos hs2] at hok
      revert hok
      split
      · intro hok
        injection hok with hok
        rw [← hok]
        exact h
      · split
        · intro hok
          injection hok with hok
          rw [← hok]
          exact h
        · intro hok
          exact applyCellRule_keysOk df ctx _ rule.condition rule.style m m2 hok h
    · rw [if_neg hs2] at hok
      injection hok with hok
      rw [← hok]
      exact h

lemma foldlM_except_inv {σ ρ : Type} (Inv : σ → Prop) (f : σ → ρ → Except String σ)
    (hstep : ∀ s r s2, f s r = .ok s2 → Inv s → Inv s2) :
    ∀ (l : List ρ) (s0 : σ), Inv s0 → ∀ s, List.foldlM f s0 l = .ok s → Inv s := by
  intro l
  induction l with
  | nil =>
      intro s0 h0 s hs
      have hs2 : (Except.ok s0 : Except String σ) = .ok s := hs
      injection hs2 with hs2
      exact hs2 ▸ h0
  | cons a rest ih =>
      intro s0 h0 s hs
      rw [foldlM_except_cons] at hs
      cases hf : f s0 a with
      | error e => rw [hf, except_bind_err] at hs; exact absurd hs (by simp)
      | ok s1 =>
          rw [hf, except_bind_ok] at hs
          exact ih s1 (hstep s0 a s1 hf h0) s hs

/-- C2: every cells key the evaluator writes is pre-shifted — its row
component lies in `1..nrows` — and every rows key is an unshifted
0-based row position; for an `equals` rule the cell written for a
matched data row `i` in column `c` is exactly `(i+1, c)`, and the
row-scope keys are exactly the matched `i` themselves. -/
theorem claim_C2_key_shift :
    (∀ (df : DataFrame) (ctx : EvalContext) (rules : List Rule) (m : StyleMap),
      evaluate_formatting_rules df rules ctx = .ok m → styleKeysOk df m) ∧
    (∀ (df : DataFrame) (ctx : EvalContext) (tc : String) (v : Value) (style : StyleDelta),
      tc ∈ df.columns → tc ≠ "" →
      ∃ mc, evaluate_formatting_rules df [cellEqualsRule tc v style] ctx = .ok mc ∧
        ∀ r c, ((r, c) ∈ dictKeys mc.cells ↔
          ∃ i, i < df.nrows ∧ pyStr (df.cell i tc) = pyStr v ∧ r = i + 1
            ∧ c = colGetLoc df.columns tc)) ∧
    (∀ (df : DataFrame) (ctx : EvalContext) (tc : String) (v : Value) (style : StyleDelta),
      tc ∈ df.columns → tc ≠ "" →
      ∃ mr, evaluate_formatting_rules df [rowEqualsRule tc v style] ctx = .ok mr ∧
        ∀ i, (i ∈ dictKeys mr.rows ↔ i < df.nrows
          ∧ (pyStr (df.cell i tc)).trim = pyStr v)) := by
  refine ⟨?_, ?_, ?_⟩
  · intro df ctx rules m h
    unfold evaluate_formatting_rules at h
    by_cases hr : rules.isEmpty
    · rw [if_pos hr] at h
      injection h with h
      rw [← h]
      exact ⟨by simp, by simp⟩
    · rw [if_neg hr] at h
      exact foldlM_except_inv (styleKeysOk df) _ (applyRule_keysOk df ctx) rules {}
        ⟨by simp, by simp⟩ m h
  · intro df ctx tc v style htc hne
    exact cellEquals_characterization df ctx tc v style htc hne
  · intro df ctx tc v style htc hne
    exact rowEquals_characterization df ctx tc v style htc hne

/-- Witness for C2: on a one-row dataset the single matching cell key is
exactly `(1, 0)`. -/
theorem claim_C2_witness :
    ∃ mc, evaluate_formatting_rules dfXw [cellEqualsRule "a" (Value.str "x") { bold := some true }] ctxW = .ok mc ∧
      ∀ r c, ((r, c) ∈ dictKeys mc.cells ↔
        ∃ i, i < dfXw.nrows ∧ pyStr (dfXw.cell i "a") = pyStr (Value.str "x") ∧ r = i + 1
          ∧ c = colGetLoc dfXw.columns "a") :=
  claim_C2_key_shift.2.1 dfXw ctxW "a" (Value.str "x") { bold := some true }
    (by decide) (by decide)

end RLC
